import Mathlib

/-!
Channel upgrade types of ibc-go (`modules/core/04-channel/types/upgrade.go`) and message
server of the wasm light client (`modules/light-clients/08-wasm/keeper/msg_server.go`).

A shallow embedding of the upgrade record validation (`Upgrade.ValidateBasic`,
`UpgradeFields.ValidateBasic`, `Timeout.IsValid`), of the error receipt generator
(`NewErrorReceipt`, `UpgradeError`), of the handlers `StoreCode` and `RemoveCodeHash`, and of
the upgrade state machine as the specification describes it, followed by the properties
proved about them.

Conventions of the embedding:
* Go `uint64` and `uint32` values are natural numbers; the embedded code performs no arithmetic
  on them, so no wrap-around can occur.
* A Go `string` is a Lean `String`, read as its sequence of runes.
* A Go `error` is `GoError = Option ErrValue`; `none` is the `nil` error.
-/

set_option autoImplicit false

namespace IbcUpgrade

/-! ## Errors (`cosmossdk.io/errors`, `github.com/pkg/errors`) -/

/-- A registered error of `cosmossdk.io/errors` (the `Error` struct built by `Register`):
its codespace, its ABCI code (a `uint32`) and its description. -/
structure SdkError where
  codespace : String
  code : Nat
  desc : String
deriving DecidableEq, Repr

/-- The non-nil error values that the error library builds: a registered error, a
`wrappedError` made by `Wrap` (parent and description), a `withStack` made by
`errors.WithStack`, and a plain error (`errors.New`) that has neither an ABCI code
nor a cause. -/
inductive ErrValue where
  | registered (e : SdkError)
  | wrapped (parent : ErrValue) (msg : String)
  | withStack (cause : ErrValue)
  | plain (text : String)
deriving DecidableEq, Repr

/-- Go `error`: `none` is `nil`. -/
abbrev GoError := Option ErrValue

/-- The method `Error()` of an error value: a registered error prints its description, a
wrapped error prints `msg: parent`, a `withStack` prints its cause. -/
def ErrValue.Error : ErrValue → String
  | .registered e => e.desc
  | .wrapped parent msg => msg ++ ": " ++ parent.Error
  | .withStack cause => cause.Error
  | .plain text => text

/-- Kind test `errors.Is(err, target)` against a registered error: the chain of causes is
followed down to a registered error, which matches when codespace and code agree. -/
def ErrValue.Is (target : SdkError) : ErrValue → Bool
  | .registered e => e.codespace == target.codespace && e.code == target.code
  | .wrapped parent _ => parent.Is target
  | .withStack cause => cause.Is target
  | .plain _ => false

/-- Kind test on a possibly nil error; `nil` is of no kind. -/
def GoError.Is (err : GoError) (target : SdkError) : Bool :=
  match err with
  | none => false
  | some e => e.Is target

namespace errorsmod

/-- ABCI code of a successful result. -/
def SuccessABCICode : Nat := 0

/-- ABCI code given to every error that provides none. -/
def internalABCICode : Nat := 1

/-- Codespace given to every error that provides none (`UndefinedCodespace`). -/
def internalABCICodespace : String := "undefined"

/-- Go `errIsNil`. -/
def errIsNil (err : GoError) : Bool :=
  match err with
  | none => true
  | some _ => false

/-- Go `stackTrace(err) != nil`: whether some error of the cause chain carries a stack trace. -/
def stackTrace : ErrValue → Bool
  | .withStack _ => true
  | .wrapped parent _ => stackTrace parent
  | .registered _ => false
  | .plain _ => false

/-- Go `errorsmod.Wrap`: `nil` stays `nil`; otherwise a stack trace is attached when the error
has none yet, and the result is a `wrappedError` with the given description. -/
def Wrap (err : GoError) (description : String) : GoError :=
  match err with
  | none => none
  | some e => some (.wrapped (if stackTrace e then e else .withStack e) description)

/-- The loop of Go `abciCode`: the first error of the cause chain that has an `ABCICode()`
gives the code; a chain that ends without one gives the internal code. -/
def abciCodeLoop : ErrValue → Nat
  | .registered e => e.code
  | .wrapped parent _ => abciCodeLoop parent
  | .withStack cause => abciCodeLoop cause
  | .plain _ => internalABCICode

/-- Go `abciCode`. -/
def abciCode (err : GoError) : Nat :=
  match err with
  | none => SuccessABCICode
  | some e => abciCodeLoop e

/-- The loop of Go `abciCodespace`. -/
def abciCodespaceLoop : ErrValue → String
  | .registered e => e.codespace
  | .wrapped parent _ => abciCodespaceLoop parent
  | .withStack cause => abciCodespaceLoop cause
  | .plain _ => internalABCICodespace

/-- Go `abciCodespace`. -/
def abciCodespace (err : GoError) : String :=
  match err with
  | none => ""
  | some e => abciCodespaceLoop e

/-- Go `defaultErrEncoder`: the log is the text of the error. -/
def defaultErrEncoder (e : ErrValue) : String := e.Error

/-- Go `ABCIInfo(err, false)`: codespace, code and log of an error. -/
def ABCIInfo (err : GoError) : String × Nat × String :=
  match err with
  | none => ("", SuccessABCICode, "")
  | some e => (abciCodespace (some e), abciCode (some e), defaultErrEncoder e)

end errorsmod

/-! ## Helpers from other packages -/

namespace collections

/-- Modelled from the spec: `collections.Contains` lives in the internal collections package,
outside the sources at hand; it tells whether `elem` is one of `elements`, which is how the
ordering is required to be one of the two known values. -/
def Contains {T : Type} [DecidableEq T] (elem : T) : List T → Bool
  | [] => false
  | e :: rest => if elem = e then true else Contains elem rest

end collections

namespace unicode

/-- Go `unicode.IsSpace`: the Unicode white space runes. -/
def IsSpace (r : Char) : Bool :=
  let n := r.toNat
  (decide (9 ≤ n) && decide (n ≤ 13)) || n == 32 || n == 0x85 || n == 0xA0 || n == 0x1680
    || (decide (0x2000 ≤ n) && decide (n ≤ 0x200A)) || n == 0x2028 || n == 0x2029
    || n == 0x202F || n == 0x205F || n == 0x3000

end unicode

namespace strings

/-- Go `strings.TrimLeftFunc` on the runes of a string. -/
def TrimLeftFunc (s : List Char) (f : Char → Bool) : List Char := s.dropWhile f

/-- Go `strings.TrimRightFunc` on the runes of a string. -/
def TrimRightFunc (s : List Char) (f : Char → Bool) : List Char :=
  (s.reverse.dropWhile f).reverse

/-- Go `strings.TrimSpace`: the string without its leading and trailing white space. -/
def TrimSpace (s : String) : String :=
  String.mk (TrimRightFunc (TrimLeftFunc s.data unicode.IsSpace) unicode.IsSpace)

end strings

/-! ## Data model -/

/-- The channel ordering, a protobuf enumeration carried as an `int32`: any integer can occur. -/
abbrev Order := Int

/-- Modelled from the spec: the enumeration values of `Order` are declared in generated code
that is not part of the sources; `NONE` is the unspecified ordering. -/
def NONE : Order := 0

/-- Modelled from the spec: the known ordering `UNORDERED`. -/
def UNORDERED : Order := 1

/-- Modelled from the spec: the known ordering `ORDERED`. -/
def ORDERED : Order := 2

/-- Modelled from the spec: the generated `String()` of the enumeration prints the name of a
known value and the decimal number of any other. It only feeds the description of an error. -/
def Order.String (o : Order) : String :=
  if o = 0 then "ORDER_NONE_UNSPECIFIED"
  else if o = 1 then "ORDER_UNORDERED"
  else if o = 2 then "ORDER_ORDERED"
  else toString o

/-- The registered errors of the channel module that `upgrade.go` returns. They are declared
outside the sources at hand, so the validation functions take them as a parameter. -/
structure ChannelErrors where
  ErrInvalidChannelOrdering : SdkError
  ErrTooManyConnectionHops : SdkError
  ErrInvalidChannelVersion : SdkError
  ErrInvalidUpgrade : SdkError

/-- The proposed channel parameters. -/
structure UpgradeFields where
  Ordering : Order
  ConnectionHops : List String
  Version : String
deriving DecidableEq, Repr

/-- A client height: revision number and revision height. -/
structure Height where
  RevisionNumber : Nat
  RevisionHeight : Nat
deriving DecidableEq, Repr

/-- Modelled from the spec: `Height.IsZero` lives in the client types, outside the sources at
hand; a height is zero when both its revision number and its revision height are 0. -/
def Height.IsZero (h : Height) : Bool :=
  h.RevisionNumber == 0 && h.RevisionHeight == 0

/-- The upgrade timeout: a height bound and a timestamp bound. -/
structure Timeout where
  Height : Height
  Timestamp : Nat
deriving DecidableEq, Repr

/-- The unit of negotiation. -/
structure Upgrade where
  Fields : UpgradeFields
  Timeout : Timeout
  LatestSequenceSend : Nat
deriving DecidableEq, Repr

/-- The committed record of a failed upgrade attempt. -/
structure ErrorReceipt where
  Sequence : Nat
  Message : String
deriving DecidableEq, Repr

/-- An error that occurs during an upgrade, with the sequence of the upgrade that failed. -/
structure UpgradeError where
  underlyingError : GoError
  upgradeSequence : Nat
deriving DecidableEq, Repr

/-! ## Operations of `upgrade.go` -/

/-- The string constant included in error receipts. -/
def restoreErrorString : String := "restored channel to pre-upgrade state"

/-- Go `NewUpgrade`. -/
def NewUpgrade (upgradeFields : UpgradeFields) (timeout : Timeout) (latestPacketSent : Nat) :
    Upgrade :=
  { Fields := upgradeFields, Timeout := timeout, LatestSequenceSend := latestPacketSent }

/-- Go `NewUpgradeFields`. -/
def NewUpgradeFields (ordering : Order) (connectionHops : List String) (version : String) :
    UpgradeFields :=
  { Ordering := ordering, ConnectionHops := connectionHops, Version := version }

/-- Go `NewUpgradeTimeout`. -/
def NewUpgradeTimeout (height : Height) (timestamp : Nat) : Timeout :=
  { Height := height, Timestamp := timestamp }

/-- Go `UpgradeFields.ValidateBasic`: ordering, then connection hops, then version. -/
def UpgradeFields.ValidateBasic (E : ChannelErrors) (uf : UpgradeFields) : GoError :=
  if !collections.Contains uf.Ordering [ORDERED, UNORDERED] then
    errorsmod.Wrap (some (.registered E.ErrInvalidChannelOrdering)) (Order.String uf.Ordering)
  else if uf.ConnectionHops.length != 1 then
    errorsmod.Wrap (some (.registered E.ErrTooManyConnectionHops))
      "current IBC version only supports one connection hop"
  else if strings.TrimSpace uf.Version == "" then
    errorsmod.Wrap (some (.registered E.ErrInvalidChannelVersion)) "version cannot be empty"
  else
    none

/-- Go `Timeout.IsValid`: true if either the height or the timestamp is non-zero. -/
def Timeout.IsValid (ut : Timeout) : Bool :=
  !ut.Height.IsZero || ut.Timestamp != 0

/-- Go `Upgrade.ValidateBasic`: the fields check, then the timeout check. -/
def Upgrade.ValidateBasic (E : ChannelErrors) (u : Upgrade) : GoError :=
  match u.Fields.ValidateBasic E with
  | some err => errorsmod.Wrap (some err) "proposed upgrade fields are invalid"
  | none =>
    if !u.Timeout.IsValid then
      errorsmod.Wrap (some (.registered E.ErrInvalidUpgrade))
        "upgrade timeout height and upgrade timeout timestamp cannot both be 0"
    else
      none

/-- Go `fmt.Sprintf("ABCI code: %d: %s", code, restoreErrorString)`. -/
def receiptMessage (code : Nat) : String :=
  "ABCI code: " ++ Nat.repr code ++ ": " ++ restoreErrorString

/-- Go `UpgradeError.Error`: the text of the underlying error; `none` is the failure of the
call on a nil underlying error. -/
def UpgradeError.Error (u : UpgradeError) : Option String :=
  u.underlyingError.map ErrValue.Error

/-- Go `UpgradeError.GetErrorReceipt`: codespace and log of the underlying error are dropped. -/
def UpgradeError.GetErrorReceipt (u : UpgradeError) : ErrorReceipt :=
  match errorsmod.ABCIInfo u.underlyingError with
  | (_, code, _) => { Sequence := u.upgradeSequence, Message := receiptMessage code }

/-- Go `NewUpgradeError`. -/
def NewUpgradeError (upgradeSequence : Nat) (err : GoError) : UpgradeError :=
  { underlyingError := err, upgradeSequence := upgradeSequence }

/-- Go `NewErrorReceipt`: codespace and log of the error are dropped. -/
def NewErrorReceipt (upgradeSequence : Nat) (err : GoError) : ErrorReceipt :=
  match errorsmod.ABCIInfo err with
  | (_, code, _) => { Sequence := upgradeSequence, Message := receiptMessage code }

/-- Go `ErrorReceipt.Error`. -/
def ErrorReceipt.Error (e : ErrorReceipt) : String := e.Message

/-- A sample registration of the four channel errors with pairwise different codes, as
`Register` enforces within one codespace; used to evaluate the code on concrete inputs. -/
def sampleErrors : ChannelErrors :=
  { ErrInvalidChannelOrdering := ⟨"channel", 6, "invalid channel ordering"⟩
    ErrTooManyConnectionHops := ⟨"channel", 15, "too many connection hops"⟩
    ErrInvalidChannelVersion := ⟨"channel", 24, "invalid channel version"⟩
    ErrInvalidUpgrade := ⟨"channel", 28, "invalid upgrade"⟩ }

/-! ## Wasm light client message server (`modules/light-clients/08-wasm/keeper/msg_server.go`) -/

/-- A Go byte slice. -/
abbrev Bytes := List Nat

/-- The state that the handlers reach through the context: the key set `ibcwasm.CodeHashes`,
the byte codes held by the wasm VM, and the code hashes of the emitted store events. -/
structure WasmState where
  CodeHashes : List Bytes
  Codes : List Bytes
  Events : List Bytes
deriving DecidableEq, Repr

/-- The keeper, of which the handlers read the authority. -/
structure Keeper where
  authority : String
deriving DecidableEq, Repr

/-- Go `Keeper.GetAuthority`. -/
def Keeper.GetAuthority (k : Keeper) : String := k.authority

/-- The message of `StoreCode`. -/
structure MsgStoreCode where
  Signer : String
  WasmByteCode : Bytes
deriving DecidableEq, Repr

/-- The response of `StoreCode`. -/
structure MsgStoreCodeResponse where
  Checksum : Bytes
deriving DecidableEq, Repr

/-- The message of `RemoveCodeHash`. -/
structure MsgRemoveCodeHash where
  Signer : String
  CodeHash : Bytes
deriving DecidableEq, Repr

/-- The response of `RemoveCodeHash`. -/
structure MsgRemoveCodeHashResponse where
  Found : Bool
deriving DecidableEq, Repr

/-- The parts that `msg_server.go` uses and that are declared outside the sources at hand,
taken as parameters: the registered error `ibcerrors.ErrUnauthorized`, the keeper method
`storeWasmCode`, the function `emitStoreWasmCodeEvent`, and the error that the underlying
store returns on a delete (`none` when the store works). -/
structure WasmDeps where
  ErrUnauthorized : SdkError
  storeWasmCode : WasmState → Bytes → (Bytes × GoError) × WasmState
  emitStoreWasmCodeEvent : WasmState → Bytes → WasmState
  deleteError : WasmState → Bytes → GoError

/-- Go `errorsmod.Wrapf`, applied to the description already formatted by `fmt.Sprintf`. -/
def errorsmod.Wrapf (err : GoError) (formatted : String) : GoError :=
  errorsmod.Wrap err formatted

/-- Modelled from the spec: `types.HasCodeHash` is declared outside the sources at hand; it
tells whether the code hash is in the key set of code hashes. -/
def HasCodeHash (st : WasmState) (codeHash : Bytes) : Bool :=
  decide (codeHash ∈ st.CodeHashes)

/-- The method `Remove` of the key set `ibcwasm.CodeHashes` (library `collections`): the key
is deleted from the set, whether it was there or not; an error of the store is passed on. -/
def CodeHashesRemove (D : WasmDeps) (st : WasmState) (codeHash : Bytes) : GoError × WasmState :=
  match D.deleteError st codeHash with
  | some e => (some e, st)
  | none => (none, { st with CodeHashes := st.CodeHashes.filter (fun h => decide (h ≠ codeHash)) })

/-- Go `Keeper.StoreCode`: the response, the error and the state after the call. -/
def Keeper.StoreCode (D : WasmDeps) (k : Keeper) (st : WasmState) (msg : MsgStoreCode) :
    (Option MsgStoreCodeResponse × GoError) × WasmState :=
  if k.GetAuthority != msg.Signer then
    ((none, errorsmod.Wrapf (some (.registered D.ErrUnauthorized))
        ("expected " ++ k.GetAuthority ++ ", got " ++ msg.Signer)), st)
  else
    match D.storeWasmCode st msg.WasmByteCode with
    | ((_, some err), st1) => ((none, errorsmod.Wrap (some err) "failed to store wasm bytecode"), st1)
    | ((codeHash, none), st1) =>
      ((some { Checksum := codeHash }, none), D.emitStoreWasmCodeEvent st1 codeHash)

/-- Go `Keeper.RemoveCodeHash`: the response, the error and the state after the call. -/
def Keeper.RemoveCodeHash (D : WasmDeps) (k : Keeper) (st : WasmState)
    (msg : MsgRemoveCodeHash) : (Option MsgRemoveCodeHashResponse × GoError) × WasmState :=
  if k.GetAuthority != msg.Signer then
    ((none, errorsmod.Wrapf (some (.registered D.ErrUnauthorized))
        ("expected " ++ k.GetAuthority ++ ", got " ++ msg.Signer)), st)
  else
    let found := HasCodeHash st msg.CodeHash
    match CodeHashesRemove D st msg.CodeHash with
    | (some err, st1) => ((none, errorsmod.Wrap (some err) "failed to remove code hash"), st1)
    | (none, st1) => ((some { Found := found }, none), st1)

/-- A sample of the outside parts, used to evaluate the handlers on concrete inputs: the
byte code is its own checksum and is recorded in the state, and the store never fails. -/
def sampleWasmDeps : WasmDeps :=
  { ErrUnauthorized := ⟨"ibc", 9, "unauthorized"⟩
    storeWasmCode := fun st code =>
      ((code, none), { st with CodeHashes := code :: st.CodeHashes, Codes := code :: st.Codes })
    emitStoreWasmCodeEvent := fun st codeHash => { st with Events := codeHash :: st.Events }
    deleteError := fun _ _ => none }

/-- Modelled from the spec: the `State` of a channel (section 3); the channel type is not
under the sources. -/
inductive ChannelState where
  | OPEN
  | CLOSED
deriving DecidableEq, Repr

/-- Modelled from the spec: the upgrade sub-state of a channel (section 4.2), missing from
the sources. The terminal outcomes OPEN, CANCELLED and EXPIRED put the sub-state back to
`NONE` with the channel `OPEN`. -/
inductive UpgradeState where
  | NONE
  | INIT
  | TRY
  | ACK
  | CONFIRM
deriving DecidableEq, Repr

/-- Modelled from the spec: the channel end (section 3), missing from the sources: its state,
its committed fields, its `UpgradeSequence` counter and its upgrade sub-state. -/
structure Channel where
  State : ChannelState
  Fields : UpgradeFields
  UpgradeSequence : Nat
  UpgradeState : UpgradeState
deriving DecidableEq, Repr

/-- Modelled from the spec: the state entries of one channel (section 6, persisted layout),
missing from the sources: the channel, the pending `Upgrade` record if any, and the latest
`ErrorReceipt` if any. -/
structure ChannelStore where
  Channel : Channel
  Upgrade : Option Upgrade
  ErrorReceipt : Option ErrorReceipt
deriving DecidableEq, Repr

/-- Modelled from the spec: a proof of the counterparty channel end (sections 4.2 and 6),
missing from the sources: the answer of the Light Client Verifier, and the upgrade sub-state
and `UpgradeSequence` that the proof shows. -/
structure CounterpartyProof where
  Verified : Bool
  UpgradeState : UpgradeState
  UpgradeSequence : Nat
deriving DecidableEq, Repr

/-- Modelled from the spec: a cancellation or timeout proof (sections 4.2 and 7), missing
from the sources: the answer of the verifier, the upgrade attempt that the proof refers to,
and the failure whose ABCI code goes into the receipt. -/
structure AbortProof where
  Verified : Bool
  UpgradeSequence : Nat
  Cause : GoError
deriving DecidableEq, Repr

/-- Modelled from the spec: the operations exposed in section 6, missing from the sources,
one per transition, and the completion of section 4.2 that opens the channel with the new
fields once the Packet Flush Coordinator reports the in-flight set empty. `TimeoutUpgrade`
carries the current height and time of the chain. -/
inductive UpgradeMsg where
  | ProposeUpgrade (fields : UpgradeFields) (timeout : Timeout) (latestSequenceSend : Nat)
  | TryUpgrade (proof : CounterpartyProof) (fields : UpgradeFields) (timeout : Timeout)
      (latestSequenceSend : Nat)
  | AckUpgrade (proof : CounterpartyProof)
  | ConfirmUpgrade (proof : CounterpartyProof)
  | OpenUpgrade (inFlightEmpty : Bool)
  | CancelUpgrade (proof : AbortProof)
  | TimeoutUpgrade (proof : AbortProof) (now : Timeout)
deriving DecidableEq, Repr

/-- Modelled from the spec: the error kinds of a rejected call (section 7), missing from the
sources. -/
inductive Rejection where
  | invalidUpgrade (err : ErrValue)
  | channelNotOpen
  | unexpectedUpgradeState
  | proofNotVerified
  | sequenceMismatch
  | unexpectedCounterpartyState
  | flushIncomplete
  | timeoutNotElapsed
deriving DecidableEq, Repr

/-- Modelled from the spec: the order of heights, missing from the sources: by revision
number, then by revision height. -/
def Height.GTE (h other : Height) : Bool :=
  decide (h.RevisionNumber > other.RevisionNumber)
    || (h.RevisionNumber == other.RevisionNumber
        && decide (h.RevisionHeight ≥ other.RevisionHeight))

/-- Modelled from the spec: the disjunctive deadline of section 3, missing from the sources:
a timeout has elapsed at the chain's current height and time when its height bound is set
and reached, or its timestamp bound is set and reached. -/
def Timeout.hasElapsed (t now : Timeout) : Bool :=
  (!t.Height.IsZero && now.Height.GTE t.Height)
    || (t.Timestamp != 0 && decide (now.Timestamp ≥ t.Timestamp))

/-- Modelled from the spec: the check of a counterparty proof (section 4.2, first transition
rule), missing from the sources: the proof is verified, it shows the expected prior state,
and its `UpgradeSequence` matches the expected one. A proof with another sequence, lower or
higher, is rejected without state change (section 4.2, first rule; scenario E of section 8). -/
def checkProof (proof : CounterpartyProof) (expectedState : UpgradeState)
    (expectedSequence : Nat) : Option Rejection :=
  if !proof.Verified then some .proofNotVerified
  else if proof.UpgradeSequence != expectedSequence then some .sequenceMismatch
  else if proof.UpgradeState != expectedState then some .unexpectedCounterpartyState
  else none

/-- Modelled from the spec: the abort of section 4.2 (second transition rule), missing from
the sources: an error receipt at the current `UpgradeSequence` is written, the pending
upgrade record is deleted, and the channel is back to `OPEN` with its committed fields. -/
def abortUpgrade (st : ChannelStore) (cause : GoError) : ChannelStore × Option ErrorReceipt :=
  let receipt := NewErrorReceipt st.Channel.UpgradeSequence cause
  ({ Channel := { st.Channel with State := .OPEN, UpgradeState := .NONE },
     Upgrade := none,
     ErrorReceipt := some receipt }, some receipt)

/-- Modelled from the spec: the check of a cancellation or timeout proof (sections 3 and
4.2), missing from the sources: an attempt is in progress, the proof is verified, and it
refers to the current `UpgradeSequence`. -/
def checkAbort (st : ChannelStore) (proof : AbortProof) : Option Rejection :=
  if st.Channel.UpgradeState == .NONE then some .unexpectedUpgradeState
  else if !proof.Verified then some .proofNotVerified
  else if proof.UpgradeSequence != st.Channel.UpgradeSequence then some .sequenceMismatch
  else none

/-- Modelled from the spec: the start of an upgrade attempt (sections 4.1 and 4.2), missing
from the sources: the record is persisted under the channel's `UpgradeSequence + 1`, which
becomes the current sequence, and the sub-state is entered. -/
def startUpgrade (st : ChannelStore) (u : Upgrade) (entered : UpgradeState) : ChannelStore :=
  { Channel := { st.Channel with UpgradeSequence := st.Channel.UpgradeSequence + 1,
                                 UpgradeState := entered },
    Upgrade := some u,
    ErrorReceipt := st.ErrorReceipt }

/-- Modelled from the spec: one transition of the upgrade state machine (sections 4.1, 4.2
and 7), missing from the sources. An accepted call gives the new state entries and the error
receipt it emitted, if any; a rejected call gives its error kind. A proposal is validated
before anything else (section 4.1); an attempt starts on an `OPEN` channel in sub-state
`NONE`, by `ProposeUpgrade` on the proposer (`INIT`) and by `TryUpgrade` on the counterparty
(`TRY`), whose proof shows the proposer in `INIT` at the sequence that the attempt takes;
`AckUpgrade` leads from `INIT` to `ACK` and `ConfirmUpgrade` from `TRY` to `CONFIRM`;
`OpenUpgrade` commits the new fields from `ACK` or `CONFIRM`; `CancelUpgrade` and
`TimeoutUpgrade` abort an attempt in progress. -/
def upgradeStep (E : ChannelErrors) (st : ChannelStore) :
    UpgradeMsg → Except Rejection (ChannelStore × Option ErrorReceipt)
  | .ProposeUpgrade fields timeout latestSequenceSend =>
    match (NewUpgrade fields timeout latestSequenceSend).ValidateBasic E with
    | some err => .error (.invalidUpgrade err)
    | none =>
      if st.Channel.State != .OPEN then .error .channelNotOpen
      else if st.Channel.UpgradeState != .NONE then .error .unexpectedUpgradeState
      else .ok (startUpgrade st (NewUpgrade fields timeout latestSequenceSend) .INIT, none)
  | .TryUpgrade proof fields timeout latestSequenceSend =>
    match (NewUpgrade fields timeout latestSequenceSend).ValidateBasic E with
    | some err => .error (.invalidUpgrade err)
    | none =>
      if st.Channel.State != .OPEN then .error .channelNotOpen
      else if st.Channel.UpgradeState != .NONE then .error .unexpectedUpgradeState
      else
        match checkProof proof .INIT (st.Channel.UpgradeSequence + 1) with
        | some r => .error r
        | none => .ok (startUpgrade st (NewUpgrade fields timeout latestSequenceSend) .TRY, none)
  | .AckUpgrade proof =>
    if st.Channel.UpgradeState != .INIT then .error .unexpectedUpgradeState
    else
      match checkProof proof .TRY st.Channel.UpgradeSequence with
      | some r => .error r
      | none => .ok ({ st with Channel := { st.Channel with UpgradeState := .ACK } }, none)
  | .ConfirmUpgrade proof =>
    if st.Channel.UpgradeState != .TRY then .error .unexpectedUpgradeState
    else
      match checkProof proof .ACK st.Channel.UpgradeSequence with
      | some r => .error r
      | none => .ok ({ st with Channel := { st.Channel with UpgradeState := .CONFIRM } }, none)
  | .OpenUpgrade inFlightEmpty =>
    if st.Channel.UpgradeState != .ACK && st.Channel.UpgradeState != .CONFIRM then
      .error .unexpectedUpgradeState
    else if !inFlightEmpty then .error .flushIncomplete
    else
      match st.Upgrade with
      | none => .error .unexpectedUpgradeState
      | some u =>
        .ok ({ Channel := { st.Channel with Fields := u.Fields, UpgradeState := .NONE },
               Upgrade := none,
               ErrorReceipt := st.ErrorReceipt }, none)
  | .CancelUpgrade proof =>
    match checkAbort st proof with
    | some r => .error r
    | none => .ok (abortUpgrade st proof.Cause)
  | .TimeoutUpgrade proof now =>
    match checkAbort st proof with
    | some r => .error r
    | none =>
      match st.Upgrade with
      | none => .error .unexpectedUpgradeState
      | some u =>
        if !u.Timeout.hasElapsed now then .error .timeoutNotElapsed
        else .ok (abortUpgrade st proof.Cause)

/-- Modelled from the spec: the state entries after a call (section 7), missing from the
sources: a rejected call writes nothing. -/
def applyMsg (E : ChannelErrors) (st : ChannelStore) (m : UpgradeMsg) : ChannelStore :=
  match upgradeStep E st m with
  | .ok (st1, _) => st1
  | .error _ => st

/-- Modelled from the spec: the error receipt that a call emits, if any. -/
def emittedBy (E : ChannelErrors) (st : ChannelStore) (m : UpgradeMsg) : Option ErrorReceipt :=
  match upgradeStep E st m with
  | .ok (_, r) => r
  | .error _ => none

/-- Modelled from the spec: the sequence of the upgrade attempt that a call starts, if any. -/
def attemptStartedBy (E : ChannelErrors) (st : ChannelStore) (m : UpgradeMsg) : Option Nat :=
  match m, upgradeStep E st m with
  | .ProposeUpgrade _ _ _, .ok (st1, _) => some st1.Channel.UpgradeSequence
  | .TryUpgrade _ _ _ _, .ok (st1, _) => some st1.Channel.UpgradeSequence
  | _, _ => none

/-- Modelled from the spec: the `UpgradeSequence` that the proof carried by a call refers
to, for the calls that carry a proof. -/
def UpgradeMsg.proofSequence : UpgradeMsg → Option Nat
  | .ProposeUpgrade _ _ _ => none
  | .TryUpgrade proof _ _ _ => some proof.UpgradeSequence
  | .AckUpgrade proof => some proof.UpgradeSequence
  | .ConfirmUpgrade proof => some proof.UpgradeSequence
  | .OpenUpgrade _ => none
  | .CancelUpgrade proof => some proof.UpgradeSequence
  | .TimeoutUpgrade proof _ => some proof.UpgradeSequence

/-- Modelled from the spec: the state entries after the calls of a block sequence, which a
chain processes one at a time (section 5). -/
def runMsgs (E : ChannelErrors) : ChannelStore → List UpgradeMsg → ChannelStore
  | st, [] => st
  | st, m :: ms => runMsgs E (applyMsg E st m) ms

/-- Modelled from the spec: the error receipts emitted along a sequence of calls, in order. -/
def emittedAlong (E : ChannelErrors) : ChannelStore → List UpgradeMsg → List ErrorReceipt
  | _, [] => []
  | st, m :: ms => (emittedBy E st m).toList ++ emittedAlong E (applyMsg E st m) ms

/-- Modelled from the spec: the sequences of the attempts started along a sequence of calls,
in order. -/
def attemptsAlong (E : ChannelErrors) : ChannelStore → List UpgradeMsg → List Nat
  | _, [] => []
  | st, m :: ms => (attemptStartedBy E st m).toList ++ attemptsAlong E (applyMsg E st m) ms

/-- A channel end with no upgrade in progress, used to evaluate the machine. -/
def sampleStore : ChannelStore :=
  { Channel := { State := .OPEN,
                 Fields := { Ordering := ORDERED, ConnectionHops := ["connection-0"],
                             Version := "ics20-1" },
                 UpgradeSequence := 2,
                 UpgradeState := .NONE },
    Upgrade := none,
    ErrorReceipt := none }

/-- The channel end of `sampleStore` after a valid proposal: attempt 3 is in progress in
sub-state `INIT`. -/
def sampleUpgrading : ChannelStore :=
  { Channel := { State := .OPEN,
                 Fields := { Ordering := ORDERED, ConnectionHops := ["connection-0"],
                             Version := "ics20-1" },
                 UpgradeSequence := 3,
                 UpgradeState := .INIT },
    Upgrade := some { Fields := { Ordering := UNORDERED, ConnectionHops := ["connection-0"],
                                  Version := "ics20-2" },
                      Timeout := { Height := { RevisionNumber := 0, RevisionHeight := 100 },
                                   Timestamp := 0 },
                      LatestSequenceSend := 5 },
    ErrorReceipt := none }

/-- The number that a string of decimal digits denotes; it reads back what `Nat.repr`
prints, which shows that the decimal rendering of a code determines the code. -/
def decimalValue (ds : List Char) : Nat :=
  ds.foldl (fun acc c => acc * 10 + (c.toNat - 48)) 0

/-! ## Auxiliary lemmas -/

theorem contains_known_orderings (o : Order) :
    collections.Contains o [ORDERED, UNORDERED] = true ↔ (o = ORDERED ∨ o = UNORDERED) := by
  simp only [collections.Contains]
  by_cases h1 : o = ORDERED
  · simp [h1]
  · by_cases h2 : o = UNORDERED
    · simp [h2]
    · simp [h1, h2]

theorem wrap_some_ne_none (e : ErrValue) (d : String) :
    errorsmod.Wrap (some e) d ≠ none := by
  simp [errorsmod.Wrap]

theorem wrap_is (e : ErrValue) (d : String) (k : SdkError) :
    GoError.Is (errorsmod.Wrap (some e) d) k = GoError.Is (some e) k := by
  simp only [errorsmod.Wrap, GoError.Is, ErrValue.Is]
  split <;> simp [ErrValue.Is]

theorem registered_is_self (k : SdkError) : GoError.Is (some (.registered k)) k = true := by
  simp [GoError.Is, ErrValue.Is]

theorem wrap_abciCode (e : ErrValue) (d : String) :
    errorsmod.abciCode (errorsmod.Wrap (some e) d) = errorsmod.abciCode (some e) := by
  simp only [errorsmod.Wrap, errorsmod.abciCode, errorsmod.abciCodeLoop]
  split <;> simp [errorsmod.abciCodeLoop]

theorem wrap_error_text (e : ErrValue) (d : String) :
    (errorsmod.Wrap (some e) d).map ErrValue.Error = some (d ++ ": " ++ e.Error) := by
  simp only [errorsmod.Wrap, Option.map, ErrValue.Error]
  split <;> simp [ErrValue.Error]

theorem newErrorReceipt_eq (s : Nat) (err : GoError) :
    NewErrorReceipt s err = { Sequence := s, Message := receiptMessage (errorsmod.abciCode err) } := by
  cases err <;> rfl

theorem dropWhile_reverse_dropWhile_eq_nil (f : Char → Bool) (l : List Char) :
    (l.dropWhile f).reverse.dropWhile f = [] ↔ ∀ c ∈ l, f c = true := by
  rw [List.dropWhile_eq_nil_iff]
  constructor
  · intro h
    rw [← List.dropWhile_eq_nil_iff]
    by_contra hne
    have hmem : (l.dropWhile f).head hne ∈ (l.dropWhile f).reverse :=
      List.mem_reverse.mpr (List.head_mem hne)
    have h1 := h _ hmem
    have h2 := List.head_dropWhile_not f l hne
    simp [h1] at h2
  · intro h
    have hnil : l.dropWhile f = [] := List.dropWhile_eq_nil_iff.mpr h
    simp [hnil]

/-- The trimmed string is empty exactly when every rune of the string is white space. -/
theorem trimSpace_eq_empty_iff (v : String) :
    strings.TrimSpace v = "" ↔ ∀ c ∈ v.data, unicode.IsSpace c = true := by
  have hmk : ∀ l : List Char, String.mk l = "" ↔ l = [] := by
    intro l
    constructor
    · intro h
      exact congrArg String.data h
    · intro h
      rw [h]
  rw [strings.TrimSpace, hmk, strings.TrimRightFunc, strings.TrimLeftFunc, List.reverse_eq_nil_iff]
  exact dropWhile_reverse_dropWhile_eq_nil unicode.IsSpace v.data

theorem fields_validateBasic_cases (E : ChannelErrors) (f : UpgradeFields) :
    f.ValidateBasic E =
      if ¬ (f.Ordering = ORDERED ∨ f.Ordering = UNORDERED) then
        errorsmod.Wrap (some (.registered E.ErrInvalidChannelOrdering)) (Order.String f.Ordering)
      else if f.ConnectionHops.length ≠ 1 then
        errorsmod.Wrap (some (.registered E.ErrTooManyConnectionHops))
          "current IBC version only supports one connection hop"
      else if strings.TrimSpace f.Version = "" then
        errorsmod.Wrap (some (.registered E.ErrInvalidChannelVersion)) "version cannot be empty"
      else none := by
  unfold UpgradeFields.ValidateBasic
  by_cases ho : f.Ordering = ORDERED ∨ f.Ordering = UNORDERED
  · have hc := (contains_known_orderings f.Ordering).mpr ho
    by_cases hl : f.ConnectionHops.length = 1
    · by_cases hv : strings.TrimSpace f.Version = ""
      · simp [hc, ho, hl, hv]
      · simp [hc, ho, hl, hv]
    · simp [hc, ho, hl]
  · have hc : collections.Contains f.Ordering [ORDERED, UNORDERED] = false := by
      cases hb : collections.Contains f.Ordering [ORDERED, UNORDERED]
      · rfl
      · exact absurd ((contains_known_orderings f.Ordering).mp hb) ho
    simp [hc, ho]

/-! ## Properties of the validation functions -/

/-- C1: `UpgradeFields.ValidateBasic` returns no error if and only if the ordering is ORDERED
or UNORDERED, there is exactly one connection hop, and the version with its leading and
trailing white space trimmed is not the empty string. -/
theorem upgradeFields_validateBasic_ok_iff (E : ChannelErrors) (f : UpgradeFields) :
    f.ValidateBasic E = none ↔
      (f.Ordering = ORDERED ∨ f.Ordering = UNORDERED) ∧ f.ConnectionHops.length = 1
        ∧ strings.TrimSpace f.Version ≠ "" := by
  rw [fields_validateBasic_cases]
  by_cases ho : f.Ordering = ORDERED ∨ f.Ordering = UNORDERED
  · by_cases hl : f.ConnectionHops.length = 1
    · by_cases hv : strings.TrimSpace f.Version = ""
      · simp [ho, hl, hv, wrap_some_ne_none]
      · simp [ho, hl, hv]
    · simp [ho, hl, wrap_some_ne_none]
  · simp [ho, wrap_some_ne_none]

/-- C2: `Timeout.IsValid` is true exactly when the height is non-zero or the timestamp is
non-zero, a height being zero only when its revision number and revision height are both 0;
the all-zero timeout is the only invalid one, and a timeout with timestamp 0 whose height has
a non-zero revision number (whatever its revision height) is valid. -/
theorem timeout_isValid_iff (t : Timeout) (h : Height) (n rh : Nat) :
    (t.IsValid = true ↔ (t.Height.IsZero = false ∨ t.Timestamp ≠ 0))
      ∧ (h.IsZero = true ↔ (h.RevisionNumber = 0 ∧ h.RevisionHeight = 0))
      ∧ (t.IsValid = false ↔ t = { Height := { RevisionNumber := 0, RevisionHeight := 0 },
                                    Timestamp := 0 })
      ∧ Timeout.IsValid { Height := { RevisionNumber := n + 1, RevisionHeight := rh },
                          Timestamp := 0 } = true := by
  refine ⟨?_, ?_, ?_, ?_⟩
  · simp [Timeout.IsValid]
  · simp [Height.IsZero]
  · obtain ⟨⟨a, b⟩, c⟩ := t
    simp [Timeout.IsValid, Height.IsZero]
  · simp [Timeout.IsValid, Height.IsZero]

/-- C3: `Upgrade.ValidateBasic` returns no error if and only if the fields check returns no
error and the timeout is valid; the result does not depend on `LatestSequenceSend`; and the
upgrade of scenario A (UNORDERED, one hop `connection-0`, version `ics20-2`, timeout height
100 and timestamp 0, latest sequence 5) passes. -/
theorem upgrade_validateBasic_ok_iff (E : ChannelErrors) (u : Upgrade) (n : Nat) :
    (u.ValidateBasic E = none ↔ (u.Fields.ValidateBasic E = none ∧ u.Timeout.IsValid = true))
      ∧ Upgrade.ValidateBasic E { u with LatestSequenceSend := n } = u.ValidateBasic E
      ∧ Upgrade.ValidateBasic E
          (NewUpgrade (NewUpgradeFields UNORDERED ["connection-0"] "ics20-2")
            (NewUpgradeTimeout { RevisionNumber := 0, RevisionHeight := 100 } 0) 5) = none := by
  refine ⟨?_, rfl, ?_⟩
  · unfold Upgrade.ValidateBasic
    cases hf : u.Fields.ValidateBasic E with
    | some err => simp [wrap_some_ne_none]
    | none =>
      cases hv : u.Timeout.IsValid <;> simp [wrap_some_ne_none]
  · have hf : UpgradeFields.ValidateBasic E
        (NewUpgradeFields UNORDERED ["connection-0"] "ics20-2") = none := by
      rw [fields_validateBasic_cases]
      have hv : strings.TrimSpace "ics20-2" ≠ "" := by decide
      simp [NewUpgradeFields, UNORDERED, hv]
    have ht : (NewUpgradeTimeout { RevisionNumber := 0, RevisionHeight := 100 } 0).IsValid
        = true := by decide
    simp [Upgrade.ValidateBasic, NewUpgrade, hf, ht]

/-- C4, as the claim states it, fails: an upgrade with no connection hop fails the fields
check, and the error of `Upgrade.ValidateBasic` is then of kind ErrTooManyConnectionHops and
not of kind ErrInvalidUpgrade. -/
theorem upgrade_validateBasic_fields_failure_not_invalidUpgrade :
    UpgradeFields.ValidateBasic sampleErrors
        { Ordering := ORDERED, ConnectionHops := [], Version := "ics20-2" } ≠ none
      ∧ GoError.Is
          (Upgrade.ValidateBasic sampleErrors
            { Fields := { Ordering := ORDERED, ConnectionHops := [], Version := "ics20-2" },
              Timeout := { Height := { RevisionNumber := 0, RevisionHeight := 100 },
                           Timestamp := 0 },
              LatestSequenceSend := 5 })
          sampleErrors.ErrInvalidUpgrade = false
      ∧ GoError.Is
          (Upgrade.ValidateBasic sampleErrors
            { Fields := { Ordering := ORDERED, ConnectionHops := [], Version := "ics20-2" },
              Timeout := { Height := { RevisionNumber := 0, RevisionHeight := 100 },
                           Timestamp := 0 },
              LatestSequenceSend := 5 })
          sampleErrors.ErrTooManyConnectionHops = true := by
  decide

theorem registered_is_eq_false (e k : SdkError)
    (h : (e.codespace, e.code) ≠ (k.codespace, k.code)) :
    GoError.Is (some (.registered e)) k = false := by
  simp only [GoError.Is, ErrValue.Is]
  by_contra hc
  simp only [Bool.not_eq_false, Bool.and_eq_true, beq_iff_eq] at hc
  exact h (by rw [hc.1, hc.2])

theorem fields_failure_not_of_kind (E : ChannelErrors) (f : UpgradeFields) (k : SdkError)
    (h1 : (E.ErrInvalidChannelOrdering.codespace, E.ErrInvalidChannelOrdering.code)
            ≠ (k.codespace, k.code))
    (h2 : (E.ErrTooManyConnectionHops.codespace, E.ErrTooManyConnectionHops.code)
            ≠ (k.codespace, k.code))
    (h3 : (E.ErrInvalidChannelVersion.codespace, E.ErrInvalidChannelVersion.code)
            ≠ (k.codespace, k.code)) :
    GoError.Is (f.ValidateBasic E) k = false := by
  rw [fields_validateBasic_cases]
  by_cases ho : f.Ordering = ORDERED ∨ f.Ordering = UNORDERED
  · by_cases hl : f.ConnectionHops.length = 1
    · by_cases hv : strings.TrimSpace f.Version = ""
      · simp only [ho, not_true_eq_false, if_false, hl, ne_eq, hv, if_true]
        rw [wrap_is]
        exact registered_is_eq_false _ _ h3
      · simp only [ho, not_true_eq_false, if_false, hl, ne_eq, hv]
        rfl
    · simp only [ho, not_true_eq_false, if_false, hl, ne_eq, not_false_eq_true, if_true]
      rw [wrap_is]
      exact registered_is_eq_false _ _ h2
  · simp only [ho, not_false_eq_true, if_true]
    rw [wrap_is]
    exact registered_is_eq_false _ _ h1

/-- C4 (amended): if the fields check or the timeout check fails, `Upgrade.ValidateBasic`
fails; when the fields check fails the error is the fields error wrapped with a description
and is of exactly the kinds of the fields error, so that, the three fields errors being
registered under a codespace and code other than those of ErrInvalidUpgrade, it is not of
kind ErrInvalidUpgrade; when the fields check passes (so that the timeout check fails) the
error is of kind ErrInvalidUpgrade. -/
theorem upgrade_validateBasic_failure_kind (E : ChannelErrors) (u : Upgrade)
    (h : u.Fields.ValidateBasic E ≠ none ∨ u.Timeout.IsValid = false) :
    u.ValidateBasic E ≠ none
      ∧ (∀ err, u.Fields.ValidateBasic E = some err →
          u.ValidateBasic E = errorsmod.Wrap (some err) "proposed upgrade fields are invalid"
            ∧ ∀ k, GoError.Is (u.ValidateBasic E) k = GoError.Is (some err) k)
      ∧ (u.Fields.ValidateBasic E = none →
          GoError.Is (u.ValidateBasic E) E.ErrInvalidUpgrade = true)
      ∧ ((E.ErrInvalidChannelOrdering.codespace, E.ErrInvalidChannelOrdering.code)
            ≠ (E.ErrInvalidUpgrade.codespace, E.ErrInvalidUpgrade.code) →
          (E.ErrTooManyConnectionHops.codespace, E.ErrTooManyConnectionHops.code)
            ≠ (E.ErrInvalidUpgrade.codespace, E.ErrInvalidUpgrade.code) →
          (E.ErrInvalidChannelVersion.codespace, E.ErrInvalidChannelVersion.code)
            ≠ (E.ErrInvalidUpgrade.codespace, E.ErrInvalidUpgrade.code) →
          u.Fields.ValidateBasic E ≠ none →
          GoError.Is (u.ValidateBasic E) E.ErrInvalidUpgrade = false) := by
  have hkind := fields_failure_not_of_kind E u.Fields E.ErrInvalidUpgrade
  unfold Upgrade.ValidateBasic
  cases hf : u.Fields.ValidateBasic E with
  | some err =>
    rw [hf] at hkind
    refine ⟨wrap_some_ne_none _ _, ?_, ?_, ?_⟩
    · intro err2 h2
      cases h2
      exact ⟨rfl, fun k => wrap_is err _ k⟩
    · intro h2
      cases h2
    · intro d1 d2 d3 _
      show GoError.Is (errorsmod.Wrap (some err) _) E.ErrInvalidUpgrade = false
      rw [wrap_is]
      exact hkind d1 d2 d3
  | none =>
    have hv : u.Timeout.IsValid = false := by
      rcases h with h | h
      · exact absurd hf h
      · exact h
    simp only [hv, Bool.not_false, if_true]
    refine ⟨wrap_some_ne_none _ _, ?_, ?_, ?_⟩
    · intro err h2
      cases h2
    · intro _
      rw [wrap_is]
      exact registered_is_self _
    · intro _ _ _ hne
      exact absurd rfl hne

theorem upgrade_validateBasic_failure_kind_witness :
    (UpgradeFields.ValidateBasic sampleErrors
        { Ordering := 7, ConnectionHops := ["connection-0"], Version := "ics20-2" } ≠ none
      ∨ Timeout.IsValid { Height := { RevisionNumber := 0, RevisionHeight := 100 },
                          Timestamp := 0 } = false)
      ∧ Upgrade.ValidateBasic sampleErrors
          { Fields := { Ordering := 7, ConnectionHops := ["connection-0"], Version := "ics20-2" },
            Timeout := { Height := { RevisionNumber := 0, RevisionHeight := 100 },
                         Timestamp := 0 },
            LatestSequenceSend := 5 } ≠ none
      ∧ GoError.Is
          (Upgrade.ValidateBasic sampleErrors
            { Fields := { Ordering := 7, ConnectionHops := ["connection-0"],
                          Version := "ics20-2" },
              Timeout := { Height := { RevisionNumber := 0, RevisionHeight := 100 },
                           Timestamp := 0 },
              LatestSequenceSend := 5 })
          sampleErrors.ErrInvalidUpgrade = false :=
  ⟨Or.inl (by decide),
    (upgrade_validateBasic_failure_kind sampleErrors
      { Fields := { Ordering := 7, ConnectionHops := ["connection-0"], Version := "ics20-2" },
        Timeout := { Height := { RevisionNumber := 0, RevisionHeight := 100 },
                     Timestamp := 0 },
        LatestSequenceSend := 5 } (Or.inl (by decide))).1,
    (upgrade_validateBasic_failure_kind sampleErrors
      { Fields := { Ordering := 7, ConnectionHops := ["connection-0"], Version := "ics20-2" },
        Timeout := { Height := { RevisionNumber := 0, RevisionHeight := 100 },
                     Timestamp := 0 },
        LatestSequenceSend := 5 } (Or.inl (by decide))).2.2.2
      (by decide) (by decide) (by decide) (by decide)⟩

/-- C5: an upgrade whose fields pass the fields check and whose timeout has zero height and
zero timestamp fails `Upgrade.ValidateBasic` with an error of kind ErrInvalidUpgrade. -/
theorem upgrade_validateBasic_zero_timeout (E : ChannelErrors) (u : Upgrade)
    (hf : u.Fields.ValidateBasic E = none) (hh : u.Timeout.Height.IsZero = true)
    (ht : u.Timeout.Timestamp = 0) :
    u.ValidateBasic E ≠ none
      ∧ GoError.Is (u.ValidateBasic E) E.ErrInvalidUpgrade = true := by
  have hv : u.Timeout.IsValid = false := by
    simp [Timeout.IsValid, hh, ht]
  simp only [Upgrade.ValidateBasic, hf, hv, Bool.not_false, if_true]
  refine ⟨wrap_some_ne_none _ _, ?_⟩
  rw [wrap_is]
  exact registered_is_self _

theorem upgrade_validateBasic_zero_timeout_witness :
    GoError.Is
      (Upgrade.ValidateBasic sampleErrors
        { Fields := { Ordering := UNORDERED, ConnectionHops := ["connection-0"],
                      Version := "ics20-2" },
          Timeout := { Height := { RevisionNumber := 0, RevisionHeight := 0 }, Timestamp := 0 },
          LatestSequenceSend := 5 })
      sampleErrors.ErrInvalidUpgrade = true :=
  (upgrade_validateBasic_zero_timeout sampleErrors
    { Fields := { Ordering := UNORDERED, ConnectionHops := ["connection-0"],
                  Version := "ics20-2" },
      Timeout := { Height := { RevisionNumber := 0, RevisionHeight := 0 }, Timestamp := 0 },
      LatestSequenceSend := 5 } (by decide) (by decide) (by decide)).2

/-- C6: with ordering ORDERED or UNORDERED and a number of connection hops other than one
(in particular none), `UpgradeFields.ValidateBasic` fails with an error of kind
ErrTooManyConnectionHops, whatever the version is. -/
theorem upgradeFields_validateBasic_hops (E : ChannelErrors) (f : UpgradeFields)
    (ho : f.Ordering = ORDERED ∨ f.Ordering = UNORDERED) (hl : f.ConnectionHops.length ≠ 1) :
    f.ValidateBasic E ≠ none
      ∧ GoError.Is (f.ValidateBasic E) E.ErrTooManyConnectionHops = true := by
  rw [fields_validateBasic_cases]
  simp only [ho, not_true_eq_false, if_false, hl, ne_eq, not_false_eq_true, if_true]
  refine ⟨wrap_some_ne_none _ _, ?_⟩
  rw [wrap_is]
  exact registered_is_self _

theorem upgradeFields_validateBasic_hops_witness :
    (UpgradeFields.ValidateBasic sampleErrors
        { Ordering := UNORDERED, ConnectionHops := [], Version := "" } ≠ none)
      ∧ GoError.Is
          (UpgradeFields.ValidateBasic sampleErrors
            { Ordering := UNORDERED, ConnectionHops := [], Version := "" })
          sampleErrors.ErrTooManyConnectionHops = true :=
  upgradeFields_validateBasic_hops sampleErrors
    { Ordering := UNORDERED, ConnectionHops := [], Version := "" }
    (Or.inr rfl) (by decide)

/-! ## Properties of the error receipt generator -/

theorem receiptMessage_eq (code : Nat) :
    receiptMessage code
      = "ABCI code: " ++ Nat.repr code ++ ": restored channel to pre-upgrade state" := by
  simp only [receiptMessage, restoreErrorString, String.append_assoc]
  rfl

theorem abciInfo_code (err : GoError) :
    (errorsmod.ABCIInfo err).2.1 = errorsmod.abciCode err := by
  cases err <;> rfl

/-- C7: `NewErrorReceipt s err` is the receipt with sequence `s` whose message is
`ABCI code: ` followed by the decimal ABCI code of `err` followed by
`: restored channel to pre-upgrade state`; codespace and log are no part of it, so two
registered errors with the same code and any codespaces and descriptions give one receipt. -/
theorem newErrorReceipt_message (s : Nat) (err : GoError) (code : Nat)
    (cs1 cs2 d1 d2 : String) :
    NewErrorReceipt s err
        = { Sequence := s,
            Message := "ABCI code: " ++ Nat.repr (errorsmod.ABCIInfo err).2.1
              ++ ": restored channel to pre-upgrade state" }
      ∧ (errorsmod.ABCIInfo err).2.1 = errorsmod.abciCode err
      ∧ NewErrorReceipt s (some (.registered ⟨cs1, code, d1⟩))
          = NewErrorReceipt s (some (.registered ⟨cs2, code, d2⟩)) := by
  refine ⟨?_, abciInfo_code err, ?_⟩
  · rw [newErrorReceipt_eq, receiptMessage_eq, abciInfo_code]
  · rw [newErrorReceipt_eq, newErrorReceipt_eq]
    rfl

/-- C8: two errors with the same ABCI code give, for the same sequence, equal receipts with
identical messages, whatever their codespaces, texts or wrapping. -/
theorem newErrorReceipt_deterministic (s : Nat) (e1 e2 : GoError)
    (h : errorsmod.abciCode e1 = errorsmod.abciCode e2) :
    NewErrorReceipt s e1 = NewErrorReceipt s e2
      ∧ (NewErrorReceipt s e1).Message = (NewErrorReceipt s e2).Message := by
  rw [newErrorReceipt_eq, newErrorReceipt_eq, h]
  exact ⟨rfl, rfl⟩

theorem newErrorReceipt_deterministic_witness :
    errorsmod.abciCode (some (.registered ⟨"channel", 28, "invalid upgrade"⟩))
        = errorsmod.abciCode
            (errorsmod.Wrap
              (errorsmod.Wrap (some (.registered ⟨"client", 28, "another text"⟩)) "inner")
              "outer")
      ∧ NewErrorReceipt 3 (some (.registered ⟨"channel", 28, "invalid upgrade"⟩))
        = NewErrorReceipt 3
            (errorsmod.Wrap
              (errorsmod.Wrap (some (.registered ⟨"client", 28, "another text"⟩)) "inner")
              "outer") :=
  ⟨by decide,
    (newErrorReceipt_deterministic 3 (some (.registered ⟨"channel", 28, "invalid upgrade"⟩))
      (errorsmod.Wrap
        (errorsmod.Wrap (some (.registered ⟨"client", 28, "another text"⟩)) "inner")
        "outer") (by decide)).1⟩

/-- C9: the receipt that `GetErrorReceipt` returns on `NewUpgradeError s err` equals
`NewErrorReceipt s err`. -/
theorem getErrorReceipt_newUpgradeError (s : Nat) (err : GoError) :
    (NewUpgradeError s err).GetErrorReceipt = NewErrorReceipt s err := by
  cases err <;> rfl

/-- C10: the text of an error never reaches the receipt: wrapping a non-nil error with any
description changes neither the receipt of `NewErrorReceipt` nor that of
`UpgradeError.GetErrorReceipt`, while `UpgradeError.Error` returns the text of the underlying
error, which for the wrapped error is the description, a colon and the text of the error. -/
theorem receipt_ignores_wrapping (s : Nat) (e : ErrValue) (d : String) :
    NewErrorReceipt s (errorsmod.Wrap (some e) d) = NewErrorReceipt s (some e)
      ∧ (NewUpgradeError s (errorsmod.Wrap (some e) d)).GetErrorReceipt
          = (NewUpgradeError s (some e)).GetErrorReceipt
      ∧ (NewUpgradeError s (some e)).Error = some e.Error
      ∧ (NewUpgradeError s (errorsmod.Wrap (some e) d)).Error
          = some (d ++ ": " ++ e.Error) := by
  have hrec : ∀ err : GoError, (NewUpgradeError s err).GetErrorReceipt = NewErrorReceipt s err := by
    intro err
    cases err <;> rfl
  refine ⟨?_, ?_, rfl, ?_⟩
  · rw [newErrorReceipt_eq, newErrorReceipt_eq, wrap_abciCode]
  · rw [hrec, hrec, newErrorReceipt_eq, newErrorReceipt_eq, wrap_abciCode]
  · exact wrap_error_text e d

/-! ## Further properties of the validation functions -/

theorem fields_validateBasic_none_iff (E : ChannelErrors) (f : UpgradeFields) :
    f.ValidateBasic E = none ↔
      (f.Ordering = ORDERED ∨ f.Ordering = UNORDERED) ∧ f.ConnectionHops.length = 1
        ∧ strings.TrimSpace f.Version ≠ "" := by
  rw [fields_validateBasic_cases]
  by_cases ho : f.Ordering = ORDERED ∨ f.Ordering = UNORDERED
  · by_cases hl : f.ConnectionHops.length = 1
    · by_cases hv : strings.TrimSpace f.Version = ""
      · simp [ho, hl, hv, wrap_some_ne_none]
      · simp [ho, hl, hv]
    · simp [ho, hl, wrap_some_ne_none]
  · simp [ho, wrap_some_ne_none]

theorem upgrade_validateBasic_none_iff (E : ChannelErrors) (u : Upgrade) :
    u.ValidateBasic E = none ↔ (u.Fields.ValidateBasic E = none ∧ u.Timeout.IsValid = true) := by
  unfold Upgrade.ValidateBasic
  cases hf : u.Fields.ValidateBasic E with
  | some err => simp [wrap_some_ne_none]
  | none => cases hv : u.Timeout.IsValid <;> simp [wrap_some_ne_none]

theorem upgrade_validateBasic_wrapped_kind (E : ChannelErrors) (u : Upgrade) (err : ErrValue)
    (h : u.Fields.ValidateBasic E = some err) (k : SdkError) :
    GoError.Is (u.ValidateBasic E) k = GoError.Is (some err) k := by
  simp only [Upgrade.ValidateBasic, h]
  exact wrap_is err _ k

/-- C11: an upgrade with a bad ordering value, a number of connection hops other than one, a
version that is empty (also after trimming) or an all-zero timeout fails
`Upgrade.ValidateBasic`, whose verdict is a function of the upgrade alone; proposing it is
rejected with that error and writes nothing: the channel with its upgrade sequence, the
upgrade record and the error receipt are unchanged and no receipt is emitted. -/
theorem malformed_upgrade_rejected_without_write (E : ChannelErrors) (u : Upgrade)
    (st : ChannelStore)
    (h : ¬ (u.Fields.Ordering = ORDERED ∨ u.Fields.Ordering = UNORDERED)
          ∨ u.Fields.ConnectionHops.length ≠ 1
          ∨ strings.TrimSpace u.Fields.Version = ""
          ∨ (u.Timeout.Height.IsZero = true ∧ u.Timeout.Timestamp = 0)) :
    u.ValidateBasic E ≠ none
      ∧ strings.TrimSpace "" = ""
      ∧ (∃ err, u.ValidateBasic E = some err
          ∧ upgradeStep E st (.ProposeUpgrade u.Fields u.Timeout u.LatestSequenceSend)
              = .error (.invalidUpgrade err))
      ∧ applyMsg E st (.ProposeUpgrade u.Fields u.Timeout u.LatestSequenceSend) = st
      ∧ emittedBy E st (.ProposeUpgrade u.Fields u.Timeout u.LatestSequenceSend) = none := by
  have hbad : u.ValidateBasic E ≠ none := by
    intro hok
    rw [upgrade_validateBasic_none_iff, fields_validateBasic_none_iff] at hok
    obtain ⟨⟨ho, hl, hv⟩, ht⟩ := hok
    rcases h with h | h | h | ⟨hz, hts⟩
    · exact h ho
    · exact h hl
    · exact hv h
    · simp [Timeout.IsValid, hz, hts] at ht
  have hu : NewUpgrade u.Fields u.Timeout u.LatestSequenceSend = u := rfl
  obtain ⟨err, herr⟩ := Option.ne_none_iff_exists'.mp hbad
  refine ⟨hbad, by decide, ⟨err, herr, ?_⟩, ?_, ?_⟩
  · simp only [upgradeStep, hu, herr]
  · simp only [applyMsg, upgradeStep, hu, herr]
  · simp only [emittedBy, upgradeStep, hu, herr]

theorem malformed_upgrade_rejected_without_write_witness :
    Upgrade.ValidateBasic sampleErrors
        { Fields := { Ordering := UNORDERED, ConnectionHops := ["connection-0", "connection-1"],
                      Version := "ics20-2" },
          Timeout := { Height := { RevisionNumber := 0, RevisionHeight := 100 }, Timestamp := 0 },
          LatestSequenceSend := 5 } ≠ none
      ∧ applyMsg sampleErrors sampleStore
          (.ProposeUpgrade
            { Ordering := UNORDERED, ConnectionHops := ["connection-0", "connection-1"],
              Version := "ics20-2" }
            { Height := { RevisionNumber := 0, RevisionHeight := 100 }, Timestamp := 0 } 5)
          = sampleStore :=
  ⟨(malformed_upgrade_rejected_without_write sampleErrors
      { Fields := { Ordering := UNORDERED, ConnectionHops := ["connection-0", "connection-1"],
                    Version := "ics20-2" },
        Timeout := { Height := { RevisionNumber := 0, RevisionHeight := 100 }, Timestamp := 0 },
        LatestSequenceSend := 5 } sampleStore (Or.inr (Or.inl (by decide)))).1,
   (malformed_upgrade_rejected_without_write sampleErrors
      { Fields := { Ordering := UNORDERED, ConnectionHops := ["connection-0", "connection-1"],
                    Version := "ics20-2" },
        Timeout := { Height := { RevisionNumber := 0, RevisionHeight := 100 }, Timestamp := 0 },
        LatestSequenceSend := 5 } sampleStore (Or.inr (Or.inl (by decide)))).2.2.2.1⟩

/-- C17: a failure of `UpgradeFields.ValidateBasic` carries the kind of the first failing
check: ErrInvalidChannelOrdering when the ordering is neither ORDERED nor UNORDERED (whatever
the hops and the version), otherwise ErrTooManyConnectionHops when the number of hops is not
one, otherwise ErrInvalidChannelVersion when the trimmed version is empty; and
`Upgrade.ValidateBasic` keeps the kinds of the fields error that it wraps. -/
theorem upgradeFields_validateBasic_first_failure (E : ChannelErrors) (f : UpgradeFields)
    (u : Upgrade) :
    (¬ (f.Ordering = ORDERED ∨ f.Ordering = UNORDERED) →
        f.ValidateBasic E ≠ none
          ∧ GoError.Is (f.ValidateBasic E) E.ErrInvalidChannelOrdering = true)
      ∧ ((f.Ordering = ORDERED ∨ f.Ordering = UNORDERED) → f.ConnectionHops.length ≠ 1 →
          f.ValidateBasic E ≠ none
            ∧ GoError.Is (f.ValidateBasic E) E.ErrTooManyConnectionHops = true)
      ∧ ((f.Ordering = ORDERED ∨ f.Ordering = UNORDERED) → f.ConnectionHops.length = 1 →
          strings.TrimSpace f.Version = "" →
          f.ValidateBasic E ≠ none
            ∧ GoError.Is (f.ValidateBasic E) E.ErrInvalidChannelVersion = true)
      ∧ (∀ err, u.Fields.ValidateBasic E = some err →
          u.ValidateBasic E ≠ none
            ∧ ∀ k, GoError.Is (u.ValidateBasic E) k = GoError.Is (some err) k) := by
  refine ⟨?_, ?_, ?_, ?_⟩
  · intro ho
    rw [fields_validateBasic_cases]
    simp only [ho, not_false_eq_true, if_true]
    exact ⟨wrap_some_ne_none _ _, by rw [wrap_is]; exact registered_is_self _⟩
  · intro ho hl
    rw [fields_validateBasic_cases]
    simp only [ho, not_true_eq_false, if_false, hl, ne_eq, not_false_eq_true, if_true]
    exact ⟨wrap_some_ne_none _ _, by rw [wrap_is]; exact registered_is_self _⟩
  · intro ho hl hv
    rw [fields_validateBasic_cases]
    simp only [ho, not_true_eq_false, if_false, hl, ne_eq, hv, if_true]
    exact ⟨wrap_some_ne_none _ _, by rw [wrap_is]; exact registered_is_self _⟩
  · intro err herr
    refine ⟨?_, fun k => upgrade_validateBasic_wrapped_kind E u err herr k⟩
    simp only [Upgrade.ValidateBasic, herr]
    exact wrap_some_ne_none _ _

theorem upgradeFields_validateBasic_first_failure_witness :
    GoError.Is
      (UpgradeFields.ValidateBasic sampleErrors
        { Ordering := 7, ConnectionHops := [], Version := "" })
      sampleErrors.ErrInvalidChannelOrdering = true :=
  ((upgradeFields_validateBasic_first_failure sampleErrors
      { Ordering := 7, ConnectionHops := [], Version := "" }
      { Fields := { Ordering := 7, ConnectionHops := [], Version := "" },
        Timeout := { Height := { RevisionNumber := 0, RevisionHeight := 0 }, Timestamp := 0 },
        LatestSequenceSend := 0 }).1 (by decide)).2

/-- C20: for a plain error, which carries no ABCI code and wraps no error, the receipt of
`NewErrorReceipt` has the message `ABCI code: 1: restored channel to pre-upgrade state`,
and it is the receipt of a registered error with code 1. -/
theorem newErrorReceipt_plain_error (s : Nat) (text cs d : String) :
    NewErrorReceipt s (some (.plain text))
        = { Sequence := s, Message := "ABCI code: 1: restored channel to pre-upgrade state" }
      ∧ NewErrorReceipt s (some (.plain text))
        = NewErrorReceipt s (some (.registered ⟨cs, 1, d⟩)) := by
  refine ⟨?_, ?_⟩
  · have hcode : errorsmod.abciCode (some (.plain text)) = 1 := rfl
    have hmsg : receiptMessage 1 = "ABCI code: 1: restored channel to pre-upgrade state" := by
      decide
    rw [newErrorReceipt_eq, hcode, hmsg]
  · rw [newErrorReceipt_eq, newErrorReceipt_eq]
    rfl

/-! ## Properties of the wasm message server -/

theorem wrapf_is (e : ErrValue) (d : String) (k : SdkError) :
    GoError.Is (errorsmod.Wrapf (some e) d) k = GoError.Is (some e) k := by
  unfold errorsmod.Wrapf
  exact wrap_is e d k

theorem storeCode_unauthorized (D : WasmDeps) (k : Keeper) (st : WasmState) (msg : MsgStoreCode)
    (h : k.GetAuthority ≠ msg.Signer) :
    Keeper.StoreCode D k st msg
      = ((none, errorsmod.Wrapf (some (.registered D.ErrUnauthorized))
          ("expected " ++ k.GetAuthority ++ ", got " ++ msg.Signer)), st) := by
  simp [Keeper.StoreCode, h]

theorem removeCodeHash_unauthorized (D : WasmDeps) (k : Keeper) (st : WasmState)
    (msg : MsgRemoveCodeHash) (h : k.GetAuthority ≠ msg.Signer) :
    Keeper.RemoveCodeHash D k st msg
      = ((none, errorsmod.Wrapf (some (.registered D.ErrUnauthorized))
          ("expected " ++ k.GetAuthority ++ ", got " ++ msg.Signer)), st) := by
  simp [Keeper.RemoveCodeHash, h]

/-- C18: for every state and every message whose signer differs from the authority of the
keeper, `StoreCode` and `RemoveCodeHash` return no response and an error of kind
ErrUnauthorized, and the state after the call is the state before it: no code is stored, no
event is emitted and no code hash is removed. -/
theorem handlers_gated_on_authority (D : WasmDeps) (k : Keeper) (st : WasmState)
    (m1 : MsgStoreCode) (m2 : MsgRemoveCodeHash)
    (h1 : k.GetAuthority ≠ m1.Signer) (h2 : k.GetAuthority ≠ m2.Signer) :
    ((Keeper.StoreCode D k st m1).1.1 = none
        ∧ GoError.Is (Keeper.StoreCode D k st m1).1.2 D.ErrUnauthorized = true
        ∧ (Keeper.StoreCode D k st m1).2 = st)
      ∧ ((Keeper.RemoveCodeHash D k st m2).1.1 = none
        ∧ GoError.Is (Keeper.RemoveCodeHash D k st m2).1.2 D.ErrUnauthorized = true
        ∧ (Keeper.RemoveCodeHash D k st m2).2 = st) := by
  rw [storeCode_unauthorized D k st m1 h1, removeCodeHash_unauthorized D k st m2 h2]
  refine ⟨⟨rfl, ?_, rfl⟩, ⟨rfl, ?_, rfl⟩⟩
  · simp only [wrapf_is]
    exact registered_is_self _
  · simp only [wrapf_is]
    exact registered_is_self _

theorem handlers_gated_on_authority_witness :
    (Keeper.StoreCode sampleWasmDeps { authority := "gov" }
        { CodeHashes := [[7, 7]], Codes := [[1, 2, 3]], Events := [] }
        { Signer := "mallory", WasmByteCode := [4, 5] }).2
        = { CodeHashes := [[7, 7]], Codes := [[1, 2, 3]], Events := [] }
      ∧ (Keeper.RemoveCodeHash sampleWasmDeps { authority := "gov" }
        { CodeHashes := [[7, 7]], Codes := [[1, 2, 3]], Events := [] }
        { Signer := "mallory", CodeHash := [7, 7] }).2
        = { CodeHashes := [[7, 7]], Codes := [[1, 2, 3]], Events := [] } :=
  ⟨(handlers_gated_on_authority sampleWasmDeps { authority := "gov" }
      { CodeHashes := [[7, 7]], Codes := [[1, 2, 3]], Events := [] }
      { Signer := "mallory", WasmByteCode := [4, 5] }
      { Signer := "mallory", CodeHash := [7, 7] } (by decide) (by decide)).1.2.2,
   (handlers_gated_on_authority sampleWasmDeps { authority := "gov" }
      { CodeHashes := [[7, 7]], Codes := [[1, 2, 3]], Events := [] }
      { Signer := "mallory", WasmByteCode := [4, 5] }
      { Signer := "mallory", CodeHash := [7, 7] } (by decide) (by decide)).2.2.2⟩

theorem checkProof_none (proof : CounterpartyProof) (s : UpgradeState) (n : Nat)
    (h : checkProof proof s n = none) :
    proof.Verified = true ∧ proof.UpgradeSequence = n ∧ proof.UpgradeState = s := by
  simp only [checkProof] at h
  split_ifs at h with c1 c2 c3
  exact ⟨by simpa using c1, by simpa using c2, by simpa using c3⟩

theorem upgradeStep_ok_cases (E : ChannelErrors) (st st1 : ChannelStore) (m : UpgradeMsg)
    (r : Option ErrorReceipt) (h : upgradeStep E st m = .ok (st1, r)) :
    (st.Channel.UpgradeState = .NONE ∧ r = none
        ∧ (∃ u s, st1 = startUpgrade st u s)
        ∧ ((∃ f t l, m = .ProposeUpgrade f t l)
          ∨ (∃ p f t l, m = .TryUpgrade p f t l
              ∧ p.UpgradeSequence = st.Channel.UpgradeSequence + 1)))
      ∨ (st.Channel.UpgradeState ≠ .NONE ∧ r = none
        ∧ (∃ s, s ≠ UpgradeState.NONE
            ∧ st1 = { st with Channel := { st.Channel with UpgradeState := s } })
        ∧ (∃ p : CounterpartyProof, (m = .AckUpgrade p ∨ m = .ConfirmUpgrade p)
            ∧ p.UpgradeSequence = st.Channel.UpgradeSequence))
      ∨ (st.Channel.UpgradeState ≠ .NONE ∧ r = none
        ∧ (∃ u : Upgrade,
            st1 = { Channel := { st.Channel with Fields := u.Fields, UpgradeState := .NONE },
                    Upgrade := none, ErrorReceipt := st.ErrorReceipt })
        ∧ (∃ b, m = .OpenUpgrade b))
      ∨ (st.Channel.UpgradeState ≠ .NONE
        ∧ (∃ p : AbortProof, (st1, r) = abortUpgrade st p.Cause
            ∧ p.Verified = true ∧ p.UpgradeSequence = st.Channel.UpgradeSequence
            ∧ (m = .CancelUpgrade p ∨ ∃ now, m = .TimeoutUpgrade p now))) := by
  cases m with
  | ProposeUpgrade f t l =>
    simp only [upgradeStep] at h
    cases hvb : (NewUpgrade f t l).ValidateBasic E with
    | some err => simp only [hvb] at h; cases h
    | none =>
      simp only [hvb] at h
      split_ifs at h with h1 h2
      simp only [Except.ok.injEq, Prod.mk.injEq] at h
      obtain ⟨rfl, rfl⟩ := h
      left
      refine ⟨?_, rfl, ⟨_, _, rfl⟩, Or.inl ⟨f, t, l, rfl⟩⟩
      simpa using h2
  | TryUpgrade p f t l =>
    simp only [upgradeStep] at h
    cases hvb : (NewUpgrade f t l).ValidateBasic E with
    | some err => simp only [hvb] at h; cases h
    | none =>
      simp only [hvb] at h
      split_ifs at h with h1 h2
      cases hc : checkProof p .INIT (st.Channel.UpgradeSequence + 1) with
      | some rej => simp only [hc] at h; cases h
      | none =>
        simp only [hc, Except.ok.injEq, Prod.mk.injEq] at h
        obtain ⟨rfl, rfl⟩ := h
        left
        refine ⟨?_, rfl, ⟨_, _, rfl⟩, Or.inr ⟨p, f, t, l, rfl, (checkProof_none _ _ _ hc).2.1⟩⟩
        simpa using h2
  | AckUpgrade p =>
    simp only [upgradeStep] at h
    split_ifs at h with h1
    cases hc : checkProof p .TRY st.Channel.UpgradeSequence with
    | some rej => simp only [hc] at h; cases h
    | none =>
      simp only [hc, Except.ok.injEq, Prod.mk.injEq] at h
      obtain ⟨rfl, rfl⟩ := h
      right; left
      have hs : st.Channel.UpgradeState = .INIT := by simpa using h1
      refine ⟨by simp [hs], rfl, ⟨.ACK, by simp, rfl⟩,
        ⟨p, Or.inl rfl, (checkProof_none _ _ _ hc).2.1⟩⟩
  | ConfirmUpgrade p =>
    simp only [upgradeStep] at h
    split_ifs at h with h1
    cases hc : checkProof p .ACK st.Channel.UpgradeSequence with
    | some rej => simp only [hc] at h; cases h
    | none =>
      simp only [hc, Except.ok.injEq, Prod.mk.injEq] at h
      obtain ⟨rfl, rfl⟩ := h
      right; left
      have hs : st.Channel.UpgradeState = .TRY := by simpa using h1
      refine ⟨by simp [hs], rfl, ⟨.CONFIRM, by simp, rfl⟩,
        ⟨p, Or.inr rfl, (checkProof_none _ _ _ hc).2.1⟩⟩
  | OpenUpgrade b =>
    simp only [upgradeStep] at h
    split_ifs at h with h1 h2
    cases hu : st.Upgrade with
    | none => simp only [hu] at h; cases h
    | some u =>
      simp only [hu, Except.ok.injEq, Prod.mk.injEq] at h
      obtain ⟨rfl, rfl⟩ := h
      right; right; left
      refine ⟨?_, rfl, ⟨u, rfl⟩, ⟨b, rfl⟩⟩
      intro hn
      simp [hn] at h1
  | CancelUpgrade p =>
    simp only [upgradeStep] at h
    cases hc : checkAbort st p with
    | some rej => simp only [hc] at h; cases h
    | none =>
      simp only [hc, Except.ok.injEq] at h
      right; right; right
      simp only [checkAbort] at hc
      split_ifs at hc with c1 c2 c3
      refine ⟨by simpa using c1, p, h.symm, by simpa using c2, by simpa using c3, Or.inl rfl⟩
  | TimeoutUpgrade p now =>
    simp only [upgradeStep] at h
    cases hc : checkAbort st p with
    | some rej => simp only [hc] at h; cases h
    | none =>
      simp only [hc] at h
      cases hu : st.Upgrade with
      | none => simp only [hu] at h; cases h
      | some u =>
        simp only [hu] at h
        split_ifs at h with h3
        simp only [Except.ok.injEq] at h
        right; right; right
        simp only [checkAbort] at hc
        split_ifs at hc with c1 c2 c3
        refine ⟨by simpa using c1, p, h.symm, by simpa using c2, by simpa using c3,
          Or.inr ⟨now, rfl⟩⟩

theorem applyMsg_of_ok (E : ChannelErrors) (st st1 : ChannelStore) (m : UpgradeMsg)
    (r : Option ErrorReceipt) (h : upgradeStep E st m = .ok (st1, r)) :
    applyMsg E st m = st1 ∧ emittedBy E st m = r := by
  simp [applyMsg, emittedBy, h]

theorem applyMsg_of_error (E : ChannelErrors) (st : ChannelStore) (m : UpgradeMsg)
    (rej : Rejection) (h : upgradeStep E st m = .error rej) :
    applyMsg E st m = st ∧ emittedBy E st m = none ∧ attemptStartedBy E st m = none := by
  refine ⟨by simp [applyMsg, h], by simp [emittedBy, h], ?_⟩
  cases m <;> simp [attemptStartedBy, h]

theorem attemptStartedBy_of_ok (E : ChannelErrors) (st st1 : ChannelStore) (m : UpgradeMsg)
    (r : Option ErrorReceipt) (h : upgradeStep E st m = .ok (st1, r)) (n : Nat)
    (hn : attemptStartedBy E st m = some n) :
    n = st1.Channel.UpgradeSequence
      ∧ ((∃ f t l, m = .ProposeUpgrade f t l) ∨ (∃ p f t l, m = .TryUpgrade p f t l)) := by
  cases m <;> simp [attemptStartedBy, h] at hn
  · exact ⟨hn.symm, Or.inl ⟨_, _, _, rfl⟩⟩
  · exact ⟨hn.symm, Or.inr ⟨_, _, _, _, rfl⟩⟩

theorem abortUpgrade_eq (st st1 : ChannelStore) (r : Option ErrorReceipt) (cause : GoError)
    (h : (st1, r) = abortUpgrade st cause) :
    st1 = { Channel := { st.Channel with State := .OPEN, UpgradeState := .NONE },
            Upgrade := none,
            ErrorReceipt := some (NewErrorReceipt st.Channel.UpgradeSequence cause) }
      ∧ r = some (NewErrorReceipt st.Channel.UpgradeSequence cause) := by
  simp only [abortUpgrade, Prod.mk.injEq] at h
  exact h

theorem newErrorReceipt_sequence (s : Nat) (err : GoError) :
    (NewErrorReceipt s err).Sequence = s := by
  rw [newErrorReceipt_eq]

theorem step_summary (E : ChannelErrors) (st : ChannelStore) (m : UpgradeMsg) :
    st.Channel.UpgradeSequence ≤ (applyMsg E st m).Channel.UpgradeSequence
      ∧ (st.Channel.UpgradeState = .NONE →
          st.Channel.UpgradeSequence < (applyMsg E st m).Channel.UpgradeSequence
            ∨ (applyMsg E st m).Channel.UpgradeState = .NONE)
      ∧ (∀ r, emittedBy E st m = some r →
          r.Sequence = st.Channel.UpgradeSequence
            ∧ st.Channel.UpgradeState ≠ .NONE
            ∧ (applyMsg E st m).Channel.UpgradeState = .NONE
            ∧ (applyMsg E st m).Channel.UpgradeSequence = st.Channel.UpgradeSequence)
      ∧ (∀ n, attemptStartedBy E st m = some n →
          n = st.Channel.UpgradeSequence + 1
            ∧ (applyMsg E st m).Channel.UpgradeSequence = n) := by
  cases hstep : upgradeStep E st m with
  | error rej =>
    obtain ⟨h1, h2, h3⟩ := applyMsg_of_error E st m rej hstep
    rw [h1, h2, h3]
    refine ⟨le_refl _, fun h => Or.inr h, ?_, ?_⟩
    · intro r hr
      cases hr
    · intro n hn
      cases hn
  | ok pr =>
    obtain ⟨st1, r⟩ := pr
    obtain ⟨h1, h2⟩ := applyMsg_of_ok E st st1 m r hstep
    have hatt := attemptStartedBy_of_ok E st st1 m r hstep
    rw [h1, h2]
    rcases upgradeStep_ok_cases E st st1 m r hstep with
      ⟨hs, hr, ⟨u, s, rfl⟩, _⟩ | ⟨hs, hr, ⟨s, hsn, rfl⟩, ⟨p, hm, _⟩⟩
        | ⟨hs, hr, ⟨u, rfl⟩, ⟨b, hm⟩⟩ | ⟨hs, p, hab, _, _, hm⟩
    · subst hr
      refine ⟨by simp [startUpgrade], fun _ => Or.inl (by simp [startUpgrade]), ?_, ?_⟩
      · intro r hr
        cases hr
      · intro n hn
        obtain ⟨hn1, _⟩ := hatt n hn
        subst hn1
        simp [startUpgrade]
    · subst hr
      refine ⟨le_refl _, fun h => absurd h hs, ?_, ?_⟩
      · intro r hr
        cases hr
      · intro n hn
        obtain ⟨_, hk⟩ := hatt n hn
        rcases hm with rfl | rfl <;> rcases hk with ⟨_, _, _, hk⟩ | ⟨_, _, _, _, hk⟩ <;> cases hk
    · subst hr
      refine ⟨le_refl _, fun _ => Or.inr rfl, ?_, ?_⟩
      · intro r hr
        cases hr
      · intro n hn
        obtain ⟨_, hk⟩ := hatt n hn
        subst hm
        rcases hk with ⟨_, _, _, hk⟩ | ⟨_, _, _, _, hk⟩ <;> cases hk
    · obtain ⟨rfl, rfl⟩ := abortUpgrade_eq st st1 r p.Cause hab
      refine ⟨le_refl _, fun _ => Or.inr rfl, ?_, ?_⟩
      · intro r hr
        cases hr
        exact ⟨newErrorReceipt_sequence _ _, hs, rfl, rfl⟩
      · intro n hn
        obtain ⟨_, hk⟩ := hatt n hn
        rcases hm with rfl | ⟨now, rfl⟩ <;>
          rcases hk with ⟨_, _, _, hk⟩ | ⟨_, _, _, _, hk⟩ <;> cases hk

theorem emittedAlong_lower_bound (E : ChannelErrors) (ms : List UpgradeMsg) :
    ∀ st : ChannelStore, ∀ r ∈ emittedAlong E st ms,
      st.Channel.UpgradeSequence ≤ r.Sequence
        ∧ (st.Channel.UpgradeState = .NONE → st.Channel.UpgradeSequence < r.Sequence) := by
  induction ms with
  | nil =>
    intro st r hr
    simp [emittedAlong] at hr
  | cons m ms ih =>
    intro st r hr
    obtain ⟨hle, hnone, hemit, _⟩ := step_summary E st m
    simp only [emittedAlong, List.mem_append, Option.mem_toList, Option.mem_def] at hr
    rcases hr with hr | hr
    · obtain ⟨h1, h2, _, _⟩ := hemit r hr
      exact ⟨by omega, fun h => absurd h h2⟩
    · obtain ⟨i1, i2⟩ := ih (applyMsg E st m) r hr
      refine ⟨by omega, fun h => ?_⟩
      rcases hnone h with h3 | h3
      · omega
      · have := i2 h3
        omega

theorem emittedAlong_increasing (E : ChannelErrors) (ms : List UpgradeMsg) :
    ∀ st : ChannelStore,
      List.Pairwise (fun a b : ErrorReceipt => a.Sequence < b.Sequence) (emittedAlong E st ms) := by
  induction ms with
  | nil =>
    intro st
    simp [emittedAlong]
  | cons m ms ih =>
    intro st
    obtain ⟨_, _, hemit, _⟩ := step_summary E st m
    simp only [emittedAlong]
    cases he : emittedBy E st m with
    | none => simpa using ih (applyMsg E st m)
    | some r =>
      obtain ⟨h1, _, h3, h4⟩ := hemit r he
      simp only [Option.toList, List.singleton_append, List.pairwise_cons]
      refine ⟨fun b hb => ?_, ih (applyMsg E st m)⟩
      have := (emittedAlong_lower_bound E ms (applyMsg E st m) b hb).2 h3
      omega

theorem attemptsAlong_lower_bound (E : ChannelErrors) (ms : List UpgradeMsg) :
    ∀ st : ChannelStore, ∀ n ∈ attemptsAlong E st ms, st.Channel.UpgradeSequence < n := by
  induction ms with
  | nil =>
    intro st n hn
    simp [attemptsAlong] at hn
  | cons m ms ih =>
    intro st n hn
    obtain ⟨hle, _, _, hatt⟩ := step_summary E st m
    simp only [attemptsAlong, List.mem_append, Option.mem_toList, Option.mem_def] at hn
    rcases hn with hn | hn
    · have := (hatt n hn).1
      omega
    · have := ih (applyMsg E st m) n hn
      omega

theorem attemptsAlong_increasing (E : ChannelErrors) (ms : List UpgradeMsg) :
    ∀ st : ChannelStore, List.Pairwise (fun a b : Nat => a < b) (attemptsAlong E st ms) := by
  induction ms with
  | nil =>
    intro st
    simp [attemptsAlong]
  | cons m ms ih =>
    intro st
    obtain ⟨_, _, _, hatt⟩ := step_summary E st m
    simp only [attemptsAlong]
    cases ha : attemptStartedBy E st m with
    | none => simpa using ih (applyMsg E st m)
    | some n =>
      obtain ⟨_, h2⟩ := hatt n ha
      simp only [Option.toList, List.singleton_append, List.pairwise_cons]
      refine ⟨fun b hb => ?_, ih (applyMsg E st m)⟩
      have := attemptsAlong_lower_bound E ms (applyMsg E st m) b hb
      omega

theorem runMsgs_sequence_ge (E : ChannelErrors) (ms : List UpgradeMsg) :
    ∀ st : ChannelStore,
      st.Channel.UpgradeSequence ≤ (runMsgs E st ms).Channel.UpgradeSequence := by
  induction ms with
  | nil =>
    intro st
    exact le_refl _
  | cons m ms ih =>
    intro st
    have h1 := (step_summary E st m).1
    have h2 := ih (applyMsg E st m)
    simp only [runMsgs]
    omega

theorem stale_proof_rejected (E : ChannelErrors) (st : ChannelStore) (m : UpgradeMsg) (q : Nat)
    (hq : m.proofSequence = some q) (hlt : q < st.Channel.UpgradeSequence) :
    ∃ rej, upgradeStep E st m = .error rej := by
  cases hstep : upgradeStep E st m with
  | error rej => exact ⟨rej, rfl⟩
  | ok pr =>
    exfalso
    obtain ⟨st1, r⟩ := pr
    rcases upgradeStep_ok_cases E st st1 m r hstep with
      ⟨_, _, _, hm⟩ | ⟨_, _, _, ⟨p, hm, hp⟩⟩ | ⟨_, _, _, ⟨b, hm⟩⟩ | ⟨_, p, _, _, hp, hm⟩
    · rcases hm with ⟨f, t, l, rfl⟩ | ⟨p, f, t, l, rfl, hp⟩
      · simp [UpgradeMsg.proofSequence] at hq
      · simp only [UpgradeMsg.proofSequence, Option.some.injEq] at hq
        omega
    · rcases hm with rfl | rfl <;>
        simp only [UpgradeMsg.proofSequence, Option.some.injEq] at hq <;> omega
    · subst hm
      simp [UpgradeMsg.proofSequence] at hq
    · rcases hm with rfl | ⟨now, rfl⟩ <;>
        simp only [UpgradeMsg.proofSequence, Option.some.injEq] at hq <;> omega

theorem abort_rejected_from_none (E : ChannelErrors) (st : ChannelStore) (proof : AbortProof)
    (now : Timeout) (h : st.Channel.UpgradeState = .NONE) :
    upgradeStep E st (.CancelUpgrade proof) = .error .unexpectedUpgradeState
      ∧ upgradeStep E st (.TimeoutUpgrade proof now) = .error .unexpectedUpgradeState := by
  simp [upgradeStep, checkAbort, h]

theorem abort_accepted_state (E : ChannelErrors) (st st1 : ChannelStore) (m : UpgradeMsg)
    (r : Option ErrorReceipt) (proof : AbortProof) (now : Timeout)
    (hm : m = .CancelUpgrade proof ∨ m = .TimeoutUpgrade proof now)
    (h : upgradeStep E st m = .ok (st1, r)) :
    st.Channel.UpgradeState ≠ .NONE ∧ (st1, r) = abortUpgrade st proof.Cause := by
  rcases upgradeStep_ok_cases E st st1 m r h with
    ⟨_, _, _, hk⟩ | ⟨_, _, _, ⟨p, hk, _⟩⟩ | ⟨_, _, _, ⟨b, hk⟩⟩ | ⟨hs, p, hab, _, _, hk⟩
  · rcases hk with ⟨_, _, _, hk⟩ | ⟨_, _, _, _, hk, _⟩ <;> rcases hm with rfl | rfl <;> cases hk
  · rcases hk with hk | hk <;> rcases hm with rfl | rfl <;> cases hk
  · rcases hm with rfl | rfl <;> cases hk
  · refine ⟨hs, ?_⟩
    rcases hk with hk | ⟨now2, hk⟩ <;> rcases hm with rfl | rfl <;> cases hk <;> exact hab

theorem abort_twice (E : ChannelErrors) (st : ChannelStore) (m : UpgradeMsg)
    (proof : AbortProof) (now : Timeout)
    (hm : m = .CancelUpgrade proof ∨ m = .TimeoutUpgrade proof now) :
    applyMsg E (applyMsg E st m) m = applyMsg E st m
      ∧ emittedBy E (applyMsg E st m) m = none := by
  cases hstep : upgradeStep E st m with
  | error rej =>
    obtain ⟨h1, h2, _⟩ := applyMsg_of_error E st m rej hstep
    rw [h1, h1, h2]
    exact ⟨rfl, rfl⟩
  | ok pr =>
    obtain ⟨st1, r⟩ := pr
    obtain ⟨h1, _⟩ := applyMsg_of_ok E st st1 m r hstep
    obtain ⟨_, hab⟩ := abort_accepted_state E st st1 m r proof now hm hstep
    obtain ⟨hst1, _⟩ := abortUpgrade_eq st st1 r proof.Cause hab
    have hnone : st1.Channel.UpgradeState = .NONE := by rw [hst1]
    obtain ⟨c1, c2⟩ := abort_rejected_from_none E st1 proof now hnone
    have hrej : upgradeStep E st1 m = .error .unexpectedUpgradeState := by
      rcases hm with rfl | rfl
      · exact c1
      · exact c2
    obtain ⟨k1, k2, _⟩ := applyMsg_of_error E st1 m _ hrej
    rw [h1, k1, k2]
    exact ⟨rfl, rfl⟩

theorem cancel_accepted (E : ChannelErrors) (st : ChannelStore) (proof : AbortProof)
    (hprog : st.Channel.UpgradeState ≠ .NONE) (hv : proof.Verified = true)
    (hs : proof.UpgradeSequence = st.Channel.UpgradeSequence) :
    upgradeStep E st (.CancelUpgrade proof) = .ok (abortUpgrade st proof.Cause) := by
  simp [upgradeStep, checkAbort, hprog, hv, hs]

theorem step_without_attempt (E : ChannelErrors) (st : ChannelStore) (m : UpgradeMsg)
    (h : attemptStartedBy E st m = none) :
    (applyMsg E st m).Channel.UpgradeSequence = st.Channel.UpgradeSequence
      ∧ (st.Channel.UpgradeState = .NONE → applyMsg E st m = st)
      ∧ ((applyMsg E st m).Channel.UpgradeState ≠ .NONE →
          (applyMsg E st m).Channel.Fields = st.Channel.Fields) := by
  cases hstep : upgradeStep E st m with
  | error rej =>
    obtain ⟨h1, _, _⟩ := applyMsg_of_error E st m rej hstep
    rw [h1]
    exact ⟨rfl, fun _ => rfl, fun _ => rfl⟩
  | ok pr =>
    obtain ⟨st1, r⟩ := pr
    obtain ⟨h1, _⟩ := applyMsg_of_ok E st st1 m r hstep
    rw [h1]
    rcases upgradeStep_ok_cases E st st1 m r hstep with
      ⟨_, _, _, hk⟩ | ⟨hs, _, ⟨s, _, rfl⟩, _⟩ | ⟨hs, _, ⟨u, rfl⟩, _⟩ | ⟨hs, p, hab, _, _, _⟩
    · exfalso
      rcases hk with ⟨f, t, l, rfl⟩ | ⟨p, f, t, l, rfl, _⟩ <;>
        simp [attemptStartedBy, hstep] at h
    · exact ⟨rfl, fun hn => absurd hn hs, fun _ => rfl⟩
    · exact ⟨rfl, fun hn => absurd hn hs, fun hc => absurd rfl hc⟩
    · obtain ⟨rfl, _⟩ := abortUpgrade_eq st st1 r p.Cause hab
      exact ⟨rfl, fun hn => absurd hn hs, fun hc => absurd rfl hc⟩

theorem attemptsAlong_nil_cons (E : ChannelErrors) (st : ChannelStore) (m : UpgradeMsg)
    (ms : List UpgradeMsg) (h : attemptsAlong E st (m :: ms) = []) :
    attemptStartedBy E st m = none ∧ attemptsAlong E (applyMsg E st m) ms = [] := by
  simp only [attemptsAlong, List.append_eq_nil] at h
  refine ⟨?_, h.2⟩
  cases ha : attemptStartedBy E st m with
  | none => rfl
  | some n => simp [ha] at h

theorem run_without_attempt (E : ChannelErrors) (ms : List UpgradeMsg) :
    ∀ st : ChannelStore, attemptsAlong E st ms = [] →
      (runMsgs E st ms).Channel.UpgradeSequence = st.Channel.UpgradeSequence
        ∧ (st.Channel.UpgradeState = .NONE → runMsgs E st ms = st)
        ∧ ((runMsgs E st ms).Channel.UpgradeState ≠ .NONE →
            (runMsgs E st ms).Channel.Fields = st.Channel.Fields) := by
  induction ms with
  | nil =>
    intro st _
    exact ⟨rfl, fun _ => rfl, fun _ => rfl⟩
  | cons m ms ih =>
    intro st h
    obtain ⟨ha, hrest⟩ := attemptsAlong_nil_cons E st m ms h
    obtain ⟨s1, s2, s3⟩ := step_without_attempt E st m ha
    obtain ⟨i1, i2, i3⟩ := ih (applyMsg E st m) hrest
    simp only [runMsgs]
    refine ⟨by rw [i1, s1], ?_, ?_⟩
    · intro hn
      have hst := s2 hn
      rw [hst] at i2 ⊢
      exact i2 hn
    · intro hfin
      by_cases hmid : (applyMsg E st m).Channel.UpgradeState = .NONE
      · exfalso
        apply hfin
        rw [i2 hmid]
        exact hmid
      · rw [i3 hfin, s3 hmid]

theorem run_single_attempt (E : ChannelErrors) (ms : List UpgradeMsg) :
    ∀ (st0 : ChannelStore) (n : Nat), st0.Channel.UpgradeState = .NONE →
      attemptsAlong E st0 ms = [n] →
      (runMsgs E st0 ms).Channel.UpgradeSequence = n
        ∧ ((runMsgs E st0 ms).Channel.UpgradeState ≠ .NONE →
            (runMsgs E st0 ms).Channel.Fields = st0.Channel.Fields) := by
  induction ms with
  | nil =>
    intro st0 n _ h
    simp [attemptsAlong] at h
  | cons m ms ih =>
    intro st0 n h0 h
    simp only [runMsgs]
    cases ha : attemptStartedBy E st0 m with
    | none =>
      have hrest : attemptsAlong E (applyMsg E st0 m) ms = [n] := by
        simpa [attemptsAlong, ha] using h
      have hsame := (step_without_attempt E st0 m ha).2.1 h0
      rw [hsame] at hrest ⊢
      exact ih st0 n h0 hrest
    | some k =>
      have hboth : k = n ∧ attemptsAlong E (applyMsg E st0 m) ms = [] := by
        simpa [attemptsAlong, ha] using h
      obtain ⟨rfl, hrest⟩ := hboth
      obtain ⟨i1, _, i3⟩ := run_without_attempt E ms (applyMsg E st0 m) hrest
      obtain ⟨_, hk⟩ := (step_summary E st0 m).2.2.2 k ha
      refine ⟨by rw [i1, hk], fun hfin => ?_⟩
      rw [i3 hfin]
      cases hstep : upgradeStep E st0 m with
      | error rej =>
        rw [(applyMsg_of_error E st0 m rej hstep).1]
      | ok pr =>
        obtain ⟨st1, r⟩ := pr
        rw [(applyMsg_of_ok E st0 st1 m r hstep).1]
        rcases upgradeStep_ok_cases E st0 st1 m r hstep with
          ⟨_, _, ⟨u, s, rfl⟩, _⟩ | ⟨hs, _, _, _⟩ | ⟨hs, _, _, _⟩ | ⟨hs, _, _⟩
        · rfl
        · exact absurd h0 hs
        · exact absurd h0 hs
        · exact absurd h0 hs

/-- C12: the `UpgradeSequence` of a channel never decreases, each upgrade attempt takes the
sequence that follows the current one, so that the sequences of the attempts started along
any run of calls are strictly increasing; and a call whose proof refers to a sequence lower
than the current one is rejected and leaves the channel, the upgrade record and the error
receipt unchanged. -/
theorem upgradeSequence_monotone (E : ChannelErrors) (st : ChannelStore) (m : UpgradeMsg)
    (ms : List UpgradeMsg) :
    st.Channel.UpgradeSequence ≤ (applyMsg E st m).Channel.UpgradeSequence
      ∧ st.Channel.UpgradeSequence ≤ (runMsgs E st ms).Channel.UpgradeSequence
      ∧ (∀ n, attemptStartedBy E st m = some n →
          n = st.Channel.UpgradeSequence + 1
            ∧ (applyMsg E st m).Channel.UpgradeSequence = n)
      ∧ List.Pairwise (fun a b : Nat => a < b) (attemptsAlong E st ms)
      ∧ (∀ n ∈ attemptsAlong E st ms, st.Channel.UpgradeSequence < n)
      ∧ (∀ q, m.proofSequence = some q → q < st.Channel.UpgradeSequence →
          (∃ rej, upgradeStep E st m = .error rej)
            ∧ applyMsg E st m = st
            ∧ (applyMsg E st m).Channel = st.Channel
            ∧ (applyMsg E st m).Upgrade = st.Upgrade
            ∧ (applyMsg E st m).ErrorReceipt = st.ErrorReceipt
            ∧ emittedBy E st m = none) := by
  refine ⟨(step_summary E st m).1, runMsgs_sequence_ge E ms st, (step_summary E st m).2.2.2,
    attemptsAlong_increasing E ms st, attemptsAlong_lower_bound E ms st, ?_⟩
  intro q hq hlt
  obtain ⟨rej, hrej⟩ := stale_proof_rejected E st m q hq hlt
  obtain ⟨h1, h2, _⟩ := applyMsg_of_error E st m rej hrej
  rw [h1]
  exact ⟨⟨rej, hrej⟩, rfl, rfl, rfl, rfl, h2⟩

theorem upgradeSequence_monotone_witness :
    UpgradeMsg.proofSequence
        (.AckUpgrade { Verified := true, UpgradeState := .TRY, UpgradeSequence := 2 }) = some 2
      ∧ 2 < sampleUpgrading.Channel.UpgradeSequence
      ∧ applyMsg sampleErrors sampleUpgrading
          (.AckUpgrade { Verified := true, UpgradeState := .TRY, UpgradeSequence := 2 })
          = sampleUpgrading :=
  ⟨rfl, by decide,
    ((upgradeSequence_monotone sampleErrors sampleUpgrading
      (.AckUpgrade { Verified := true, UpgradeState := .TRY, UpgradeSequence := 2 }) []).2.2.2.2.2
      2 rfl (by decide)).2.1⟩

/-- C13: applying the same cancellation proof, or the same timeout proof, twice gives the
state that applying it once gives, and the second application emits no receipt; along any
run of calls the emitted error receipts have strictly increasing sequences, so that at most
one receipt is emitted per upgrade sequence. -/
theorem abort_idempotent (E : ChannelErrors) (st : ChannelStore) (proof : AbortProof)
    (now : Timeout) (ms : List UpgradeMsg) :
    applyMsg E (applyMsg E st (.CancelUpgrade proof)) (.CancelUpgrade proof)
        = applyMsg E st (.CancelUpgrade proof)
      ∧ emittedBy E (applyMsg E st (.CancelUpgrade proof)) (.CancelUpgrade proof) = none
      ∧ applyMsg E (applyMsg E st (.TimeoutUpgrade proof now)) (.TimeoutUpgrade proof now)
        = applyMsg E st (.TimeoutUpgrade proof now)
      ∧ emittedBy E (applyMsg E st (.TimeoutUpgrade proof now)) (.TimeoutUpgrade proof now)
        = none
      ∧ List.Pairwise (fun a b : ErrorReceipt => a.Sequence < b.Sequence)
          (emittedAlong E st ms)
      ∧ ((emittedAlong E st ms).map ErrorReceipt.Sequence).Nodup := by
  obtain ⟨c1, c2⟩ := abort_twice E st (.CancelUpgrade proof) proof now (Or.inl rfl)
  obtain ⟨t1, t2⟩ := abort_twice E st (.TimeoutUpgrade proof now) proof now (Or.inr rfl)
  refine ⟨c1, c2, t1, t2, emittedAlong_increasing E ms st, ?_⟩
  have hpw : List.Pairwise (fun a b : Nat => a < b)
      ((emittedAlong E st ms).map ErrorReceipt.Sequence) := by
    rw [List.pairwise_map]
    exact emittedAlong_increasing E ms st
  exact hpw.imp (fun hab => Nat.ne_of_lt hab)

/-- C14: the cancellation of an upgrade in progress, by a verified proof for the current
`UpgradeSequence`, is accepted, writes and emits the error receipt whose sequence is the
current `UpgradeSequence` (the sequence of the attempt), deletes the pending upgrade record
and leaves the channel `OPEN` with no upgrade in progress and with the fields it had before
the upgrade attempt started; an accepted timeout has the same outcome. -/
theorem cancellation_restores (E : ChannelErrors) (st0 st : ChannelStore)
    (ms : List UpgradeMsg) (n : Nat) (proof : AbortProof)
    (h0 : st0.Channel.UpgradeState = .NONE)
    (hatt : attemptsAlong E st0 ms = [n])
    (hrun : runMsgs E st0 ms = st)
    (hprog : st.Channel.UpgradeState ≠ .NONE)
    (hv : proof.Verified = true)
    (hs : proof.UpgradeSequence = st.Channel.UpgradeSequence) :
    upgradeStep E st (.CancelUpgrade proof)
        = .ok (applyMsg E st (.CancelUpgrade proof),
            some (NewErrorReceipt st.Channel.UpgradeSequence proof.Cause))
      ∧ (applyMsg E st (.CancelUpgrade proof)).ErrorReceipt
        = some (NewErrorReceipt st.Channel.UpgradeSequence proof.Cause)
      ∧ (NewErrorReceipt st.Channel.UpgradeSequence proof.Cause).Sequence
        = st.Channel.UpgradeSequence
      ∧ st.Channel.UpgradeSequence = n
      ∧ (applyMsg E st (.CancelUpgrade proof)).Upgrade = none
      ∧ (applyMsg E st (.CancelUpgrade proof)).Channel.Fields = st0.Channel.Fields
      ∧ (applyMsg E st (.CancelUpgrade proof)).Channel.State = .OPEN
      ∧ (applyMsg E st (.CancelUpgrade proof)).Channel.UpgradeState = .NONE
      ∧ (applyMsg E st (.CancelUpgrade proof)).Channel.UpgradeSequence
        = st.Channel.UpgradeSequence
      ∧ (∀ now st1 r, upgradeStep E st (.TimeoutUpgrade proof now) = .ok (st1, r) →
          st1 = applyMsg E st (.CancelUpgrade proof)
            ∧ r = some (NewErrorReceipt st.Channel.UpgradeSequence proof.Cause)) := by
  have hstep := cancel_accepted E st proof hprog hv hs
  have happ : applyMsg E st (.CancelUpgrade proof) = (abortUpgrade st proof.Cause).1 := by
    simp [applyMsg, hstep]
  obtain ⟨hseq, hfields⟩ := run_single_attempt E ms st0 n h0 hatt
  rw [hrun] at hseq hfields
  rw [happ]
  refine ⟨hstep, rfl, newErrorReceipt_sequence _ _, hseq, rfl, hfields hprog, rfl, rfl, rfl, ?_⟩
  intro now st1 r hto
  obtain ⟨_, hab⟩ := abort_accepted_state E st st1 (.TimeoutUpgrade proof now) r proof now
    (Or.inr rfl) hto
  obtain ⟨e1, e2⟩ := abortUpgrade_eq st st1 r proof.Cause hab
  exact ⟨e1, e2⟩

theorem cancellation_restores_witness :
    (applyMsg sampleErrors sampleUpgrading
        (.CancelUpgrade { Verified := true, UpgradeSequence := 3,
                          Cause := some (.plain "counterparty rejected the version") })).ErrorReceipt
        = some { Sequence := 3,
                 Message := "ABCI code: 1: restored channel to pre-upgrade state" }
      ∧ (applyMsg sampleErrors sampleUpgrading
          (.CancelUpgrade { Verified := true, UpgradeSequence := 3,
                            Cause := some (.plain "counterparty rejected the version") })).Channel.Fields
        = sampleStore.Channel.Fields :=
  ⟨((cancellation_restores sampleErrors sampleStore sampleUpgrading
        [.ProposeUpgrade
          { Ordering := UNORDERED, ConnectionHops := ["connection-0"], Version := "ics20-2" }
          { Height := { RevisionNumber := 0, RevisionHeight := 100 }, Timestamp := 0 } 5]
        3
        { Verified := true, UpgradeSequence := 3,
          Cause := some (.plain "counterparty rejected the version") }
        rfl (by decide) (by decide) (by decide) rfl rfl).2.1).trans (by decide),
   (cancellation_restores sampleErrors sampleStore sampleUpgrading
        [.ProposeUpgrade
          { Ordering := UNORDERED, ConnectionHops := ["connection-0"], Version := "ics20-2" }
          { Height := { RevisionNumber := 0, RevisionHeight := 100 }, Timestamp := 0 } 5]
        3
        { Verified := true, UpgradeSequence := 3,
          Cause := some (.plain "counterparty rejected the version") }
        rfl (by decide) (by decide) (by decide) rfl rfl).2.2.2.2.2.1⟩

/-! ## Further properties of the error receipt generator -/

theorem digitChar_value (d : Nat) (h : d < 10) : (Nat.digitChar d).toNat - 48 = d := by
  interval_cases d <;> rfl

theorem toDigitsCore_value (fuel : Nat) :
    ∀ (n : Nat) (ds : List Char), n < fuel →
      (Nat.toDigitsCore 10 fuel n ds).foldl (fun acc c => acc * 10 + (c.toNat - 48)) 0
        = ds.foldl (fun acc c => acc * 10 + (c.toNat - 48)) n := by
  induction fuel with
  | zero =>
    intro n ds h
    omega
  | succ fuel ih =>
    intro n ds h
    have hd : (Nat.digitChar (n % 10)).toNat - 48 = n % 10 :=
      digitChar_value (n % 10) (Nat.mod_lt n (by decide))
    simp only [Nat.toDigitsCore]
    by_cases h0 : n / 10 = 0
    · simp only [h0, if_true, List.foldl_cons, hd, Nat.zero_mul, Nat.zero_add]
      have hn : n % 10 = n := by omega
      rw [hn]
    · simp only [h0, if_false]
      rw [ih (n / 10) _ (by omega)]
      simp only [List.foldl_cons, hd]
      have hn : n / 10 * 10 + n % 10 = n := by omega
      rw [hn]

theorem decimalValue_toDigits (n : Nat) : decimalValue (Nat.toDigits 10 n) = n := by
  unfold decimalValue Nat.toDigits
  rw [toDigitsCore_value (n + 1) n [] (by omega)]
  rfl

theorem repr_injective (a b : Nat) (h : Nat.repr a = Nat.repr b) : a = b := by
  have hd : Nat.toDigits 10 a = Nat.toDigits 10 b := by
    have hdata := congrArg String.data h
    simpa [Nat.repr, List.asString] using hdata
  have hv := congrArg decimalValue hd
  rwa [decimalValue_toDigits, decimalValue_toDigits] at hv

theorem receiptMessage_injective (a b : Nat) (h : receiptMessage a = receiptMessage b) :
    a = b := by
  apply repr_injective
  have hdata := congrArg String.data h
  simp only [receiptMessage, String.data_append] at hdata
  have h1 := List.append_cancel_right hdata
  have h2 := List.append_cancel_right h1
  have h3 := List.append_cancel_left h2
  exact String.ext h3

/-- C21: `NewErrorReceipt s nil` returns the receipt with sequence `s` and the message
`ABCI code: 0: restored channel to pre-upgrade state`, the code of success, and
`GetErrorReceipt` on `NewUpgradeError s nil` returns the same receipt. -/
theorem newErrorReceipt_nil (s : Nat) :
    NewErrorReceipt s none
        = { Sequence := s, Message := "ABCI code: 0: restored channel to pre-upgrade state" }
      ∧ errorsmod.ABCIInfo none = ("", errorsmod.SuccessABCICode, "")
      ∧ (NewUpgradeError s none).GetErrorReceipt = NewErrorReceipt s none
      ∧ (NewUpgradeError s none).GetErrorReceipt
        = { Sequence := s, Message := "ABCI code: 0: restored channel to pre-upgrade state" } := by
  have hmsg : receiptMessage 0 = "ABCI code: 0: restored channel to pre-upgrade state" := by
    decide
  have hnew : NewErrorReceipt s none
      = { Sequence := s, Message := "ABCI code: 0: restored channel to pre-upgrade state" } := by
    rw [newErrorReceipt_eq, ← hmsg]
    rfl
  exact ⟨hnew, rfl, rfl, hnew⟩

/-- C22: two receipts of `NewErrorReceipt` are equal if and only if the sequences are equal
and the errors have the same ABCI code; the message is an injective function of the code. -/
theorem newErrorReceipt_eq_iff (s1 s2 : Nat) (e1 e2 : GoError) :
    (NewErrorReceipt s1 e1 = NewErrorReceipt s2 e2
        ↔ (s1 = s2 ∧ errorsmod.abciCode e1 = errorsmod.abciCode e2))
      ∧ ((NewErrorReceipt s1 e1).Message = (NewErrorReceipt s2 e2).Message
        ↔ errorsmod.abciCode e1 = errorsmod.abciCode e2)
      ∧ Function.Injective receiptMessage := by
  have hinj : Function.Injective receiptMessage := fun a b h => receiptMessage_injective a b h
  refine ⟨?_, ?_, hinj⟩
  · rw [newErrorReceipt_eq, newErrorReceipt_eq]
    constructor
    · intro h
      have hs := congrArg ErrorReceipt.Sequence h
      have hm := congrArg ErrorReceipt.Message h
      exact ⟨hs, hinj hm⟩
    · rintro ⟨hs, hc⟩
      rw [hs, hc]
  · rw [newErrorReceipt_eq, newErrorReceipt_eq]
    constructor
    · intro h
      exact hinj h
    · intro hc
      rw [hc]

end IbcUpgrade
